import Mathlib

/-!
# Simbody: bend-stretch (polar coordinates) mobilizer and matter-subsystem operators

A shallow embedding of

* `src/src/RigidBodyNodeSpec_PolarCoords.h` (class `RBNodeBendStretch`), and
* `src/include/simbody/internal/MatterSubsystem.h` (the inline operators of
  `MatterSubsystem`).

The small fixed-size linear algebra of SimTKcommon (`Vec3`, `Mat33`, `Rotation`,
`Transform`, `SpatialVec`) is written out over an arbitrary commutative ring, so
that the purely algebraic operators can be evaluated on integers or rationals.
Everything that needs `sin`, `cos`, `atan2` or `sqrt` is stated over the real
numbers.
-/

namespace SimTK

/-! ## SimTKcommon small vectors and matrices -/

/-- Three-vector `Vec3`; `v[0]`, `v[1]`, `v[2]` are the fields `x`, `y`, `z`. -/
structure Vec3 (α : Type) where
  x : α
  y : α
  z : α
deriving DecidableEq

/-- Two-vector `Vec2`; `r[0]`, `r[1]` are the fields `x`, `y`. -/
structure Vec2 (α : Type) where
  x : α
  y : α
deriving DecidableEq

/-- A 3x3 matrix stored by rows: `R[i]` is the field `ri`. `Rotation` is this type. -/
structure Mat33 (α : Type) where
  r0 : Vec3 α
  r1 : Vec3 α
  r2 : Vec3 α
deriving DecidableEq

/-- The `Rotation` class: a 3x3 matrix (orthonormal when built by its own methods). -/
abbrev Rotation (α : Type) := Mat33 α

/-- The `Transform` class `X_AB`: rotation `R_AB` and translation `p_AB` (older name `T()`). -/
structure Transform (α : Type) where
  R : Rotation α
  p : Vec3 α
deriving DecidableEq

/-- Spatial vector `SpatialVec = Vec<2,Vec3>`: `V[0]` (angular) is `w`, `V[1]` (linear) is `v`. -/
structure SpatialVec (α : Type) where
  w : Vec3 α
  v : Vec3 α
deriving DecidableEq

section Algebra

variable {α : Type}

/-- The constructor `Vec3(a)`: every component equal to `a`. -/
def Vec3.fill (a : α) : Vec3 α := ⟨a, a, a⟩

instance [Zero α] : Zero (Vec3 α) := ⟨Vec3.fill 0⟩

instance [Add α] : Add (Vec3 α) := ⟨fun a b => ⟨a.x + b.x, a.y + b.y, a.z + b.z⟩⟩

instance [Sub α] : Sub (Vec3 α) := ⟨fun a b => ⟨a.x - b.x, a.y - b.y, a.z - b.z⟩⟩

instance [Zero α] : Zero (SpatialVec α) := ⟨⟨0, 0⟩⟩

instance [Add α] : Add (SpatialVec α) := ⟨fun a b => ⟨a.w + b.w, a.v + b.v⟩⟩

instance [Sub α] : Sub (SpatialVec α) := ⟨fun a b => ⟨a.w - b.w, a.v - b.v⟩⟩

/-- Scalar multiple `v * s` of a `Vec3`. -/
def Vec3.scale [Mul α] (v : Vec3 α) (s : α) : Vec3 α := ⟨v.x * s, v.y * s, v.z * s⟩

/-- Scalar multiple of a `SpatialVec`. -/
def SpatialVec.scale [Mul α] (V : SpatialVec α) (s : α) : SpatialVec α :=
  ⟨V.w.scale s, V.v.scale s⟩

/-- Cross product, the operator `a % b` of SimTKcommon. -/
def Vec3.cross [Mul α] [Sub α] (a b : Vec3 α) : Vec3 α :=
  ⟨a.y * b.z - a.z * b.y, a.z * b.x - a.x * b.z, a.x * b.y - a.y * b.x⟩

/-- Dot product of two `Vec3`. -/
def Vec3.dot [Mul α] [Add α] (a b : Vec3 α) : α := a.x * b.x + a.y * b.y + a.z * b.z

/-- The sub-vector `p.getSubVec<2>(0)`: the first two components. -/
def Vec3.getSubVec2 (p : Vec3 α) : Vec2 α := ⟨p.x, p.y⟩

/-- Matrix times vector, `R * v`. -/
def Mat33.mulVec [Mul α] [Add α] (R : Mat33 α) (v : Vec3 α) : Vec3 α :=
  ⟨R.r0.dot v, R.r1.dot v, R.r2.dot v⟩

/-- Transpose `~R`; for a rotation this is its inverse. -/
def Mat33.transpose (R : Mat33 α) : Mat33 α :=
  ⟨⟨R.r0.x, R.r1.x, R.r2.x⟩, ⟨R.r0.y, R.r1.y, R.r2.y⟩, ⟨R.r0.z, R.r1.z, R.r2.z⟩⟩

/-- First column `R.x()`: the x axis of the rotated frame, expressed in the base frame. -/
def Mat33.colX (R : Mat33 α) : Vec3 α := ⟨R.r0.x, R.r1.x, R.r2.x⟩

/-- Matrix product `A * B`, the composition of two rotations. -/
def Mat33.mul [Mul α] [Add α] (A B : Mat33 α) : Mat33 α :=
  ⟨⟨A.r0.dot B.colX, A.r0.dot ⟨B.r0.y, B.r1.y, B.r2.y⟩, A.r0.dot ⟨B.r0.z, B.r1.z, B.r2.z⟩⟩,
   ⟨A.r1.dot B.colX, A.r1.dot ⟨B.r0.y, B.r1.y, B.r2.y⟩, A.r1.dot ⟨B.r0.z, B.r1.z, B.r2.z⟩⟩,
   ⟨A.r2.dot B.colX, A.r2.dot ⟨B.r0.y, B.r1.y, B.r2.y⟩, A.r2.dot ⟨B.r0.z, B.r1.z, B.r2.z⟩⟩⟩

/-- The identity matrix (default `Rotation`). -/
def Mat33.one [Zero α] [One α] : Mat33 α := ⟨⟨1, 0, 0⟩, ⟨0, 1, 0⟩, ⟨0, 0, 1⟩⟩

/-- Orthonormality of the rows, `R * ~R = 1`, the defining property of a `Rotation`. -/
def Mat33.IsOrthonormal [Mul α] [Add α] [Zero α] [One α] (R : Mat33 α) : Prop :=
  R.r0.dot R.r0 = 1 ∧ R.r1.dot R.r1 = 1 ∧ R.r2.dot R.r2 = 1 ∧
  R.r0.dot R.r1 = 0 ∧ R.r0.dot R.r2 = 0 ∧ R.r1.dot R.r2 = 0

/-- Apply a transform to a station, `X_AB * s_B = R_AB * s_B + p_AB`. -/
def Transform.mulVec [Mul α] [Add α] (X : Transform α) (s : Vec3 α) : Vec3 α :=
  X.R.mulVec s + X.p

/-- Apply the inverse transform, `~X_AB * s_A = ~R_AB * (s_A - p_AB)`. -/
def Transform.invMulVec [Mul α] [Add α] [Sub α] (X : Transform α) (s : Vec3 α) : Vec3 α :=
  X.R.transpose.mulVec (s - X.p)

/-- The accessor `X.T()` (later renamed `X.p()`): the translation. -/
def Transform.T (X : Transform α) : Vec3 α := X.p

end Algebra

/-! ## `Vector_<T>`: run-time sized vectors -/

/-- The class `Vector_<T>`: a sized sequence of elements. -/
abbrev Vector_ (β : Type) := List β

/-- The method `resize(n)`: the vector gets exactly `n` elements (kept elements first, new
elements default to zero; SimTK leaves the content unspecified). -/
def Vector_.resize {β : Type} [Zero β] (v : Vector_ β) (n : Nat) : Vector_ β :=
  v.take n ++ List.replicate (n - v.length) 0

/-- The method `setToZero()`: every element becomes zero, the size is kept. -/
def Vector_.setToZero {β : Type} [Zero β] (v : Vector_ β) : Vector_ β :=
  v.map (fun _ => 0)

/-! ## `MatterSubsystem` (MatterSubsystem.h) -/

/-- Topological counts of a `MatterSubsystem`: the results of `getNBodies()`,
`getNParticles()` and `getNMobilities()`, which the header only declares. -/
structure MatterSubsystem where
  getNBodies : Nat
  getNParticles : Nat
  getNMobilities : Nat
deriving DecidableEq

/-- The part of a realized `State` read by the kinematic operators: `getBodyPosition(s, body)`
and `getBodyVelocity(s, body)` are cache look-ups which the header only declares. -/
structure State (α : Type) where
  getBodyPosition : Int → Transform α
  getBodyVelocity : Int → SpatialVec α

/-- The three force arrays handled by `resetForces`. -/
structure Forces (α : Type) where
  bodyForces : Vector_ (SpatialVec α)
  particleForces : Vector_ (Vec3 α)
  mobilityForces : Vector_ α

/-- `MatterSubsystem::resetForces`: size each array, then set it to zero. -/
def MatterSubsystem.resetForces {α : Type} [Zero α] (m : MatterSubsystem) (f : Forces α) :
    Forces α :=
  { bodyForces := (Vector_.resize f.bodyForces m.getNBodies).setToZero
    particleForces := (Vector_.resize f.particleForces m.getNParticles).setToZero
    mobilityForces := (Vector_.resize f.mobilityForces m.getNMobilities).setToZero }

section Kinematics

variable {α : Type} [CommRing α]

/-- `getBodyRotation(s, body) = getBodyPosition(s, body).R()`. -/
def getBodyRotation (s : State α) (body : Int) : Rotation α := (s.getBodyPosition body).R

/-- `getBodyLocation(s, body) = getBodyPosition(s, body).T()`. -/
def getBodyLocation (s : State α) (body : Int) : Vec3 α := (s.getBodyPosition body).T

/-- `getBodyAngularVelocity(s, body) = getBodyVelocity(s, body)[0]`. -/
def getBodyAngularVelocity (s : State α) (body : Int) : Vec3 α := (s.getBodyVelocity body).w

/-- `getBodyLinearVelocity(s, body) = getBodyVelocity(s, body)[1]`. -/
def getBodyLinearVelocity (s : State α) (body : Int) : Vec3 α := (s.getBodyVelocity body).v

/-- `calcStationLocation`: `X_GB * stationB`. -/
def calcStationLocation (s : State α) (bodyB : Int) (stationB : Vec3 α) : Vec3 α :=
  (s.getBodyPosition bodyB).mulVec stationB

/-- `calcStationLocationInBody`: `~X_GA * calcStationLocation(s, bodyB, stationB)`. -/
def calcStationLocationInBody (s : State α) (bodyB : Int) (stationB : Vec3 α) (bodyA : Int) :
    Vec3 α :=
  (s.getBodyPosition bodyA).invMulVec (calcStationLocation s bodyB stationB)

/-- `calcVectorOrientation`: `R_GB * vectorB`. -/
def calcVectorOrientation (s : State α) (bodyB : Int) (vectorB : Vec3 α) : Vec3 α :=
  (getBodyRotation s bodyB).mulVec vectorB

/-- `calcVectorOrientationInBody`: `~R_GA * calcVectorOrientation(s, bodyB, vectorB)`. -/
def calcVectorOrientationInBody (s : State α) (bodyB : Int) (vectorB : Vec3 α) (bodyA : Int) :
    Vec3 α :=
  (getBodyRotation s bodyA).transpose.mulVec (calcVectorOrientation s bodyB vectorB)

/-- `calcStationVelocity`: `V_GB[1] + V_GB[0] % stationB_G`. -/
def calcStationVelocity (s : State α) (bodyB : Int) (stationB : Vec3 α) : Vec3 α :=
  let V_GB := s.getBodyVelocity bodyB
  let stationB_G := calcVectorOrientation s bodyB stationB
  V_GB.v + V_GB.w.cross stationB_G

/-- `calcStationVelocityInBody`, line by line as in the header. -/
def calcStationVelocityInBody (s : State α) (bodyB : Int) (stationB : Vec3 α) (bodyA : Int) :
    Vec3 α :=
  let Vdiff_AB := s.getBodyVelocity bodyB - s.getBodyVelocity bodyA
  let stationA_G := calcStationLocation s bodyB stationB - getBodyLocation s bodyA
  let v_AsB_G := Vdiff_AB.v + Vdiff_AB.w.cross stationA_G
  (getBodyRotation s bodyA).transpose.mulVec v_AsB_G

end Kinematics

/-! ## `RBNodeBendStretch` (RigidBodyNodeSpec_PolarCoords.h) -/

/-- The Jacobian type `HType` of a two-mobility node: two columns, each a `SpatialVec`;
`H(0)` is `c0` and `H(1)` is `c1`. -/
structure HType (α : Type) where
  c0 : SpatialVec α
  c1 : SpatialVec α
deriving DecidableEq

/-- The product `H * u` of a Jacobian with the node's two generalized speeds. -/
def HType.mulU {α : Type} [Mul α] [Add α] (H : HType α) (u : Vec2 α) : SpatialVec α :=
  H.c0.scale u.x + H.c1.scale u.y

/-- `RBNodeBendStretch::calcAcrossJointVelocityJacobian`; the argument is the cached
transform `X_F0M0 = findX_F0M0(pc)`, for a non-reversed mobilizer the result of
`calcAcrossJointTransform`. -/
def calcAcrossJointVelocityJacobian {α : Type} [CommRing α] (X_F0M0 : Transform α) : HType α :=
  let R_F0M0 := X_F0M0.R
  let p_FM := X_F0M0.p
  let Mx_F := R_F0M0.colX
  { c0 := ⟨⟨0, 0, 1⟩, (Vec3.cross ⟨0, 0, 1⟩ p_FM)⟩
    c1 := ⟨Vec3.fill 0, Mx_F⟩ }

/-- `RBNodeBendStretch::calcAcrossJointVelocityJacobianDot`; the arguments are the cached
`X_F0M0 = findX_F0M0(pc)` and `V_F0M0 = findV_F0M0(pc, vc)`. -/
def calcAcrossJointVelocityJacobianDot {α : Type} [CommRing α] (X_F0M0 : Transform α)
    (V_F0M0 : SpatialVec α) : HType α :=
  let R_F0M0 := X_F0M0.R
  let Mx_F := R_F0M0.colX
  let w_FM := V_F0M0.w
  let v_FM := V_F0M0.v
  { c0 := ⟨Vec3.fill 0, (Vec3.cross ⟨0, 0, 1⟩ v_FM)⟩
    c1 := ⟨Vec3.fill 0, w_FM.cross Mx_F⟩ }

noncomputable section

/-- The type `Vector = Vector_<Real>` of the global `q` and `u` arrays. -/
abbrev Vector := Vector_ ℝ

/-- The slot assignment of one bend-stretch node: where its two `q`s and its two `u`s start
in the global arrays. -/
structure RBNodeBendStretch where
  uIndex : Nat
  qIndex : Nat
deriving DecidableEq

/-- Modelled from the spec: `fromQ(q)` of RigidBodyNodeSpec.h (not under src/) reads this
mobilizer's contiguous two-slot slice of the global `q` array, starting at its `qIndex`. -/
def RBNodeBendStretch.fromQ (n : RBNodeBendStretch) (q : Vector) : Vec2 ℝ :=
  ⟨q.getD n.qIndex 0, q.getD (n.qIndex + 1) 0⟩

/-- Modelled from the spec: `toQ(q)[i] = a` of RigidBodyNodeSpec.h (not under src/) writes
slot `i` of this mobilizer's slice of the global `q` array. -/
def RBNodeBendStretch.toQ (n : RBNodeBendStretch) (q : Vector) (i : Nat) (a : ℝ) : Vector :=
  q.set (n.qIndex + i) a

/-- Modelled from the spec: `fromU(u)` of RigidBodyNodeSpec.h (not under src/) reads this
mobilizer's contiguous two-slot slice of the global `u` array, starting at its `uIndex`. -/
def RBNodeBendStretch.fromU (n : RBNodeBendStretch) (u : Vector) : Vec2 ℝ :=
  ⟨u.getD n.uIndex 0, u.getD (n.uIndex + 1) 0⟩

/-- Modelled from the spec: `toU(u)[i] = a` of RigidBodyNodeSpec.h (not under src/) writes
slot `i` of this mobilizer's slice of the global `u` array. -/
def RBNodeBendStretch.toU (n : RBNodeBendStretch) (u : Vector) (i : Nat) (a : ℝ) : Vector :=
  u.set (n.uIndex + i) a

/-- The C library function `std::atan2(y, x)` over the reals: the angle in `(-π, π]` of the
point `(x, y)`, and `0` at the origin. -/
def atan2 (y x : ℝ) : ℝ := Complex.arg ⟨x, y⟩

/-- The method `Vec2::norm()`: square root of the sum of squares. -/
def Vec2.norm (r : Vec2 ℝ) : ℝ := Real.sqrt (r.x * r.x + r.y * r.y)

/-- The method `Vec3::norm()`: square root of the sum of squares. -/
def Vec3.norm (r : Vec3 ℝ) : ℝ := Real.sqrt (r.x * r.x + r.y * r.y + r.z * r.z)

/-- The method `Rotation::setRotationFromAngleAboutZ(θ)`, also the constructor
`Rotation(θ, ZAxis)`. -/
def Rotation.setRotationFromAngleAboutZ (θ : ℝ) : Rotation ℝ :=
  ⟨⟨Real.cos θ, -Real.sin θ, 0⟩, ⟨Real.sin θ, Real.cos θ, 0⟩, ⟨0, 0, 1⟩⟩

/-- Modelled from the spec: `Rotation::convertRotationToBodyFixedXYZ` is SimTKcommon code, not
under src/. It returns the body-fixed X-Y-Z angles `(θ1, θ2, θ3)` of `R = Rx(θ1) Ry(θ2) Rz(θ3)`:
`θ2 = atan2(R[0][2], Rsum)` with `Rsum = |cos θ2|` recovered from four entries; away from the
singularity (`Rsum > 4 Eps`) `θ1 = atan2(-R[1][2], R[2][2])` and `θ3 = atan2(-R[0][1], R[0][0])`;
at the singularity the third angle is set to `0` and the first carries the whole rotation. -/
def Rotation.convertRotationToBodyFixedXYZ (Eps : ℝ) (R : Rotation ℝ) : Vec3 ℝ :=
  let Rsum := Real.sqrt ((R.r0.x ^ 2 + R.r0.y ^ 2 + R.r1.z ^ 2 + R.r2.z ^ 2) / 2)
  let theta2 := atan2 R.r0.z Rsum
  if Rsum > 4 * Eps then
    ⟨atan2 (-R.r1.z) R.r2.z, theta2, atan2 (-R.r0.y) R.r0.x⟩
  else if R.r0.z > 0 then
    ⟨atan2 (R.r1.x + R.r2.y) (R.r1.y - R.r2.x), theta2, 0⟩
  else
    ⟨atan2 (R.r2.y - R.r1.x) (R.r1.y + R.r2.x), theta2, 0⟩

/-- `RBNodeBendStretch::setQToFitRotationImpl`; `Eps` is the machine-epsilon constant used
inside `convertRotationToBodyFixedXYZ`. -/
def RBNodeBendStretch.setQToFitRotationImpl (Eps : ℝ) (n : RBNodeBendStretch)
    (R_FM : Rotation ℝ) (q : Vector) : Vector :=
  let angles123 := Rotation.convertRotationToBodyFixedXYZ Eps R_FM
  n.toQ q 0 angles123.z

/-- `RBNodeBendStretch::setQToFitTranslationImpl`; `Eps` is the constant `Eps` of SimTKcommon
(machine epsilon of `Real`), which is not declared under src/. -/
def RBNodeBendStretch.setQToFitTranslationImpl (Eps : ℝ) (n : RBNodeBendStretch)
    (p_FM : Vec3 ℝ) (q : Vector) : Vector :=
  let r := p_FM.getSubVec2
  let d := r.norm
  if d ≥ 4 * Eps then
    let angle := atan2 r.y r.x
    n.toQ (n.toQ q 0 angle) 1 d
  else
    n.toQ q 1 0

/-- `RBNodeBendStretch::setUToFitAngularVelocityImpl`. -/
def RBNodeBendStretch.setUToFitAngularVelocityImpl (n : RBNodeBendStretch) (_q : Vector)
    (w_FM : Vec3 ℝ) (u : Vector) : Vector :=
  n.toU u 0 w_FM.z

/-- `RBNodeBendStretch::setUToFitLinearVelocityImpl`; `SignificantReal` is the constant of
that name of SimTKcommon, which is not declared under src/. -/
def RBNodeBendStretch.setUToFitLinearVelocityImpl (SignificantReal : ℝ) (n : RBNodeBendStretch)
    (q : Vector) (v_FM : Vec3 ℝ) (u : Vector) : Vector :=
  let R_FM := Rotation.setRotationFromAngleAboutZ (n.fromQ q).x
  let v_FM_M := R_FM.transpose.mulVec v_FM
  let u1 := n.toU u 1 v_FM_M.x
  let x := (n.fromQ q).y
  if |x| < SignificantReal then
    u1
  else
    n.toU u1 0 (v_FM_M.y / x)

/-- `RBNodeBendStretch::isUsingAngles`: the returned flag, `startOfAngles` and `nAngles`. -/
def RBNodeBendStretch.isUsingAngles (_n : RBNodeBendStretch) : Bool × Nat × Nat :=
  (true, 0, 1)

/-- The four arrays `calcJointSinCosQNorm` receives by reference. -/
structure SinCosQNorm where
  sine : Vector
  cosine : Vector
  qErr : Vector
  qnorm : Vector

/-- `RBNodeBendStretch::calcJointSinCosQNorm`: the four reference arguments after the call
(the body writes `toQ(sine)[0]` and `toQ(cosine)[0]` and nothing else). -/
def RBNodeBendStretch.calcJointSinCosQNorm (n : RBNodeBendStretch) (q : Vector)
    (a : SinCosQNorm) : SinCosQNorm :=
  let angle := (n.fromQ q).x
  { sine := n.toQ a.sine 0 (Real.sin angle)
    cosine := n.toQ a.cosine 0 (Real.cos angle)
    qErr := a.qErr
    qnorm := a.qnorm }

/-- `RBNodeBendStretch::calcAcrossJointTransform`: the transform `X_F0M0` written. -/
def RBNodeBendStretch.calcAcrossJointTransform (n : RBNodeBendStretch) (q : Vector) :
    Transform ℝ :=
  let coords := n.fromQ q
  let R := Rotation.setRotationFromAngleAboutZ coords.x
  { R := R, p := R.mulVec ⟨coords.y, 0, 0⟩ }


/-- The state of the `calcStationVelocityInBody` example: body 0 is ground (identity pose, at
rest); body 1 has its origin at `(1, 0, 0)`, axes parallel to ground, and spins about its own
z axis with unit angular velocity while its origin stays in place. -/
def spinningBodyState : State ℤ where
  getBodyPosition := fun b => if b = 1 then ⟨Mat33.one, ⟨1, 0, 0⟩⟩ else ⟨Mat33.one, ⟨0, 0, 0⟩⟩
  getBodyVelocity := fun b => if b = 1 then ⟨⟨0, 0, 1⟩, ⟨0, 0, 0⟩⟩ else ⟨⟨0, 0, 0⟩, ⟨0, 0, 0⟩⟩

/-- The state of the station-operator examples: body 0 is ground; body 1 is turned a quarter
turn about z with its origin at `(1, 2, 3)`; body 2 is turned a quarter turn about x with its
origin at `(0, 5, 0)`; every body is at rest. -/
def quarterTurnState (α : Type) [CommRing α] : State α where
  getBodyPosition := fun b =>
    if b = 1 then ⟨⟨⟨0, -1, 0⟩, ⟨1, 0, 0⟩, ⟨0, 0, 1⟩⟩, ⟨1, 2, 3⟩⟩
    else if b = 2 then ⟨⟨⟨1, 0, 0⟩, ⟨0, 0, -1⟩, ⟨0, 1, 0⟩⟩, ⟨0, 5, 0⟩⟩
    else ⟨Mat33.one, ⟨0, 0, 0⟩⟩
  getBodyVelocity := fun _ => ⟨⟨0, 0, 0⟩, ⟨0, 0, 0⟩⟩

/-- A moving body for the station-velocity example: body 1 turns about the z axis at unit
rate while its origin moves along x at unit speed, `X_GB(t) = (Rz(t), (t, 0, 0))` and
`V_GB = ((0, 0, 1), (1, 0, 0))`; every other body is ground. -/
def turningBodyMotion (t : ℝ) : State ℝ where
  getBodyPosition := fun b =>
    if b = 1 then ⟨Rotation.setRotationFromAngleAboutZ t, ⟨t, 0, 0⟩⟩
    else ⟨Mat33.one, ⟨0, 0, 0⟩⟩
  getBodyVelocity := fun b =>
    if b = 1 then ⟨⟨0, 0, 1⟩, ⟨1, 0, 0⟩⟩ else ⟨⟨0, 0, 0⟩, ⟨0, 0, 0⟩⟩

/-- A division as the program executes it, made fallible: no result when the divisor is
zero. -/
def checkedDiv (a b : ℝ) : Option ℝ := if b = 0 then none else some (a / b)

/-- `RBNodeBendStretch::setUToFitLinearVelocityImpl` statement by statement, with the division
`v_FM_M[1] / x` made fallible: there is a result only if no executed division has a zero
divisor. -/
def RBNodeBendStretch.setUToFitLinearVelocityImplChecked (SignificantReal : ℝ)
    (n : RBNodeBendStretch) (q : Vector) (v_FM : Vec3 ℝ) (u : Vector) : Option Vector :=
  let R_FM := Rotation.setRotationFromAngleAboutZ (n.fromQ q).x
  let v_FM_M := R_FM.transpose.mulVec v_FM
  let u1 := n.toU u 1 v_FM_M.x
  let x := (n.fromQ q).y
  if |x| < SignificantReal then
    some u1
  else
    (checkedDiv v_FM_M.y x).map (fun a => n.toU u1 0 a)

/-! ## Composite quantities and predicates used in the statements -/

/-- Second column `R.y()` of a rotation. -/
def Mat33.colY {α : Type} (R : Mat33 α) : Vec3 α := ⟨R.r0.y, R.r1.y, R.r2.y⟩

/-- Third column `R.z()` of a rotation. -/
def Mat33.colZ {α : Type} (R : Mat33 α) : Vec3 α := ⟨R.r0.z, R.r1.z, R.r2.z⟩

/-- The Jacobian `H_FM(q)` of a non-reversed bend-stretch mobilizer: the position cache holds
the result of `calcAcrossJointTransform`, from which `calcAcrossJointVelocityJacobian` reads
`X_F0M0`. -/
def RBNodeBendStretch.H_FM (n : RBNodeBendStretch) (q : Vector) : HType ℝ :=
  calcAcrossJointVelocityJacobian (n.calcAcrossJointTransform q)

/-- The cross-joint velocity `V_FM = H_FM(q) * u` cached for a non-reversed mobilizer. -/
def RBNodeBendStretch.V_FM (n : RBNodeBendStretch) (q u : Vector) : SpatialVec ℝ :=
  (n.H_FM q).mulU (n.fromU u)

/-- The Jacobian derivative `HDot_FM(q, u)` of a non-reversed bend-stretch mobilizer:
`calcAcrossJointVelocityJacobianDot` evaluated on the cached `X_FM` and `V_FM`. -/
def RBNodeBendStretch.HDot_FM (n : RBNodeBendStretch) (q u : Vector) : HType ℝ :=
  calcAcrossJointVelocityJacobianDot (n.calcAcrossJointTransform q) (n.V_FM q u)

/-- A time-dependent `Vec3` has the time derivative `d` at time `t`: componentwise. -/
def Vec3.HasTimeDerivAt (f : ℝ → Vec3 ℝ) (d : Vec3 ℝ) (t : ℝ) : Prop :=
  HasDerivAt (fun s => (f s).x) d.x t ∧ HasDerivAt (fun s => (f s).y) d.y t ∧
    HasDerivAt (fun s => (f s).z) d.z t

/-- The body `B` of a time-dependent state moves rigidly at time `t` with the spatial velocity
`V_GB = (w, v)` recorded in the state: every axis (column) of `R_GB` has time derivative
`w % axis`, and the origin `p_GB` has time derivative `v`. -/
def HasSpatialVelocityAt (s : ℝ → State ℝ) (bodyB : Int) (t : ℝ) : Prop :=
  Vec3.HasTimeDerivAt (fun τ => (getBodyRotation (s τ) bodyB).colX)
    ((getBodyAngularVelocity (s t) bodyB).cross (getBodyRotation (s t) bodyB).colX) t ∧
  Vec3.HasTimeDerivAt (fun τ => (getBodyRotation (s τ) bodyB).colY)
    ((getBodyAngularVelocity (s t) bodyB).cross (getBodyRotation (s t) bodyB).colY) t ∧
  Vec3.HasTimeDerivAt (fun τ => (getBodyRotation (s τ) bodyB).colZ)
    ((getBodyAngularVelocity (s t) bodyB).cross (getBodyRotation (s t) bodyB).colZ) t ∧
  Vec3.HasTimeDerivAt (fun τ => getBodyLocation (s τ) bodyB)
    (getBodyLinearVelocity (s t) bodyB) t

/-- A trajectory `q(t)` of the global coordinate array whose bend-stretch slice has the time
derivative given by the `u` slice at time `t` (for this joint `qdot = u`). -/
def RBNodeBendStretch.IsTrajectoryAt (n : RBNodeBendStretch) (q : ℝ → Vector) (u : Vector)
    (t : ℝ) : Prop :=
  HasDerivAt (fun s => (n.fromQ (q s)).x) (n.fromU u).x t ∧
    HasDerivAt (fun s => (n.fromQ (q s)).y) (n.fromU u).y t

end

/-! ## Auxiliary facts -/

theorem getD_set_eq (q : List ℝ) (i : Nat) (a : ℝ) (h : i < q.length) :
    (q.set i a).getD i 0 = a := by
  simp [List.getElem?_set, h]

theorem getD_set_ne (q : List ℝ) (i j : Nat) (a : ℝ) (h : i ≠ j) :
    (q.set i a).getD j 0 = q.getD j 0 := by
  simp [List.getElem?_set, h]

theorem norm_mul_cos_atan2 (x y : ℝ) :
    Real.sqrt (x * x + y * y) * Real.cos (atan2 y x) = x := by
  have h := Complex.abs_mul_cos_arg ⟨x, y⟩
  rw [Complex.abs_apply, Complex.normSq_mk] at h
  exact h

theorem norm_mul_sin_atan2 (x y : ℝ) :
    Real.sqrt (x * x + y * y) * Real.sin (atan2 y x) = y := by
  have h := Complex.abs_mul_sin_arg ⟨x, y⟩
  rw [Complex.abs_apply, Complex.normSq_mk] at h
  exact h

theorem vec3_add_def {α : Type} [Add α] (a b : Vec3 α) :
    a + b = ⟨a.x + b.x, a.y + b.y, a.z + b.z⟩ := rfl

theorem vec3_sub_def {α : Type} [Sub α] (a b : Vec3 α) :
    a - b = ⟨a.x - b.x, a.y - b.y, a.z - b.z⟩ := rfl

theorem spatialVec_add_def {α : Type} [Add α] (a b : SpatialVec α) :
    a + b = ⟨a.w + b.w, a.v + b.v⟩ := rfl

theorem spatialVec_sub_def {α : Type} [Sub α] (a b : SpatialVec α) :
    a - b = ⟨a.w - b.w, a.v - b.v⟩ := rfl

/-- The slice read back after `setQToFitTranslationImpl`, in both branches. -/
theorem fromQ_setQToFitTranslationImpl (Eps : ℝ) (n : RBNodeBendStretch) (p_FM : Vec3 ℝ)
    (q : Vector) (hq : n.qIndex + 1 < q.length) :
    n.fromQ (n.setQToFitTranslationImpl Eps p_FM q) =
      if Real.sqrt (p_FM.x * p_FM.x + p_FM.y * p_FM.y) ≥ 4 * Eps then
        ⟨atan2 p_FM.y p_FM.x, Real.sqrt (p_FM.x * p_FM.x + p_FM.y * p_FM.y)⟩
      else ⟨(n.fromQ q).x, 0⟩ := by
  have h0 : n.qIndex < q.length := by omega
  unfold RBNodeBendStretch.setQToFitTranslationImpl RBNodeBendStretch.fromQ
    RBNodeBendStretch.toQ Vec2.norm Vec3.getSubVec2
  by_cases hd : Real.sqrt (p_FM.x * p_FM.x + p_FM.y * p_FM.y) ≥ 4 * Eps
  · simp only [hd, if_true, Nat.add_zero]
    rw [getD_set_ne _ _ _ _ (by omega), getD_set_eq _ _ _ h0,
      getD_set_eq _ _ _ (by simpa using hq)]
  · simp only [hd, if_false]
    rw [getD_set_ne _ _ _ _ (by omega), getD_set_eq _ _ _ hq]

/-- The translation of `calcAcrossJointTransform`, written out. -/
theorem calcAcrossJointTransform_p (n : RBNodeBendStretch) (q : Vector) :
    (n.calcAcrossJointTransform q).p =
      ⟨(n.fromQ q).y * Real.cos (n.fromQ q).x, (n.fromQ q).y * Real.sin (n.fromQ q).x, 0⟩ := by
  simp [RBNodeBendStretch.calcAcrossJointTransform, Rotation.setRotationFromAngleAboutZ,
    Mat33.mulVec, Vec3.dot, mul_comm]

/-- The slice read back after `setUToFitLinearVelocityImpl`, in both branches. -/
theorem fromU_setUToFitLinearVelocityImpl (SignificantReal : ℝ) (n : RBNodeBendStretch)
    (q : Vector) (v_FM : Vec3 ℝ) (u : Vector) (hu : n.uIndex + 1 < u.length) :
    n.fromU (n.setUToFitLinearVelocityImpl SignificantReal q v_FM u) =
      if |(n.fromQ q).y| < SignificantReal then
        ⟨(n.fromU u).x, Real.cos (n.fromQ q).x * v_FM.x + Real.sin (n.fromQ q).x * v_FM.y⟩
      else
        ⟨(-Real.sin (n.fromQ q).x * v_FM.x + Real.cos (n.fromQ q).x * v_FM.y) / (n.fromQ q).y,
          Real.cos (n.fromQ q).x * v_FM.x + Real.sin (n.fromQ q).x * v_FM.y⟩ := by
  have h0 : n.uIndex < u.length := by omega
  unfold RBNodeBendStretch.setUToFitLinearVelocityImpl
  by_cases hx : |(n.fromQ q).y| < SignificantReal
  · simp only [hx, if_true]
    unfold RBNodeBendStretch.fromU RBNodeBendStretch.toU
    rw [getD_set_ne _ _ _ _ (by omega), getD_set_eq _ _ _ hu]
    simp [Rotation.setRotationFromAngleAboutZ, Mat33.transpose, Mat33.mulVec, Vec3.dot]
  · simp only [hx, if_false]
    unfold RBNodeBendStretch.fromU RBNodeBendStretch.toU
    simp only [Nat.add_zero]
    rw [getD_set_eq _ _ _ (by simpa using h0), getD_set_ne _ _ _ _ (by omega),
      getD_set_eq _ _ _ hu]
    simp [Rotation.setRotationFromAngleAboutZ, Mat33.transpose, Mat33.mulVec, Vec3.dot]

/-- Sizing and then zeroing a vector gives `n` zeros, whatever it held before. -/
theorem setToZero_resize {β : Type} [Zero β] (v : Vector_ β) (n : Nat) :
    (Vector_.resize v n).setToZero = List.replicate n 0 := by
  unfold Vector_.setToZero Vector_.resize
  rw [List.map_const']
  congr 1
  simp only [List.length_append, List.length_take, List.length_replicate]
  omega

/-- For a rotation (orthonormal rows), `R * (~R * v) = v`. -/
theorem Mat33.mulVec_transpose_mulVec {α : Type} [CommRing α] (R : Mat33 α)
    (hR : R.IsOrthonormal) (v : Vec3 α) : R.mulVec (R.transpose.mulVec v) = v := by
  obtain ⟨h00, h11, h22, h01, h02, h12⟩ := hR
  obtain ⟨⟨a, b, c⟩, ⟨d, e, f⟩, ⟨g, h, i⟩⟩ := R
  obtain ⟨x, y, z⟩ := v
  simp only [Vec3.dot] at h00 h11 h22 h01 h02 h12
  simp only [Mat33.mulVec, Mat33.transpose, Vec3.dot, Vec3.mk.injEq]
  refine ⟨?_, ?_, ?_⟩
  · linear_combination x * h00 + y * h01 + z * h02
  · linear_combination x * h01 + y * h11 + z * h12
  · linear_combination x * h02 + y * h12 + z * h22

/-- What `calcStationVelocityInBody` computes in general: the relative velocity
`~R_GA * (v_station - v_coincident point of A)` plus the extra term
`~R_GA * (w_GB % (p_GB - p_GA))`, which comes from crossing the angular velocity of `B` with
the vector from the origin of `A` rather than from the origin of `B`. -/
theorem calcStationVelocityInBody_eq {α : Type} [CommRing α] (s : State α) (bodyB bodyA : Int)
    (stationB : Vec3 α) (hA : (getBodyRotation s bodyA).IsOrthonormal) :
    calcStationVelocityInBody s bodyB stationB bodyA =
      (getBodyRotation s bodyA).transpose.mulVec
        ((calcStationVelocity s bodyB stationB -
            calcStationVelocity s bodyA (calcStationLocationInBody s bodyB stationB bodyA)) +
          (getBodyAngularVelocity s bodyB).cross
            (getBodyLocation s bodyB - getBodyLocation s bodyA)) := by
  have hinv := Mat33.mulVec_transpose_mulVec (getBodyRotation s bodyA) hA
    (calcStationLocation s bodyB stationB - (s.getBodyPosition bodyA).p)
  unfold calcStationVelocityInBody
  unfold calcStationVelocity calcVectorOrientation calcStationLocationInBody Transform.invMulVec
  rw [show (s.getBodyPosition bodyA).R = getBodyRotation s bodyA from rfl, hinv]
  simp only [calcStationLocation, Transform.mulVec, getBodyLocation, Transform.T,
    getBodyAngularVelocity, getBodyRotation, spatialVec_sub_def, vec3_sub_def, vec3_add_def,
    Vec3.cross]
  congr 1
  simp only [Vec3.mk.injEq]
  refine ⟨?_, ?_, ?_⟩ <;> ring

/-- A matrix with orthonormal rows also has orthonormal columns (a left inverse of a square
matrix over a commutative ring is a right inverse). -/
theorem Mat33.isOrthonormal_transpose {α : Type} [CommRing α] {R : Mat33 α}
    (hR : R.IsOrthonormal) : R.transpose.IsOrthonormal := by
  obtain ⟨h00, h11, h22, h01, h02, h12⟩ := hR
  obtain ⟨⟨a, b, c⟩, ⟨d, e, f⟩, ⟨g, h, i⟩⟩ := R
  simp only [Vec3.dot] at h00 h11 h22 h01 h02 h12
  have hM : (!![a, b, c; d, e, f; g, h, i] : Matrix (Fin 3) (Fin 3) α)
      * !![a, d, g; b, e, h; c, f, i] = 1 := by
    ext r k
    fin_cases r <;> fin_cases k <;>
      simp [Matrix.mul_apply, Fin.sum_univ_three] <;>
      first
        | linear_combination h00 | linear_combination h11 | linear_combination h22
        | linear_combination h01 | linear_combination h02 | linear_combination h12
  have hN := Matrix.mul_eq_one_comm.mp hM
  have e00 := congrFun (congrFun hN 0) 0
  have e11 := congrFun (congrFun hN 1) 1
  have e22 := congrFun (congrFun hN 2) 2
  have e01 := congrFun (congrFun hN 0) 1
  have e02 := congrFun (congrFun hN 0) 2
  have e12 := congrFun (congrFun hN 1) 2
  simp [Matrix.mul_apply, Fin.sum_univ_three] at e00 e11 e22 e01 e02 e12
  simp only [Mat33.IsOrthonormal, Mat33.transpose, Vec3.dot]
  exact ⟨e00, e11, e22, e01, e02, e12⟩

/-- For a rotation (orthonormal rows), `~R * (R * v) = v`. -/
theorem Mat33.transpose_mulVec_mulVec {α : Type} [CommRing α] (R : Mat33 α)
    (hR : R.IsOrthonormal) (v : Vec3 α) : R.transpose.mulVec (R.mulVec v) = v :=
  Mat33.mulVec_transpose_mulVec R.transpose (Mat33.isOrthonormal_transpose hR) v

/-- A rotation preserves the dot product: `(R * a) . (R * b) = a . b`. -/
theorem Mat33.dot_mulVec {α : Type} [CommRing α] (R : Mat33 α) (hR : R.IsOrthonormal)
    (a b : Vec3 α) : (R.mulVec a).dot (R.mulVec b) = a.dot b := by
  obtain ⟨h00, h11, h22, h01, h02, h12⟩ := Mat33.isOrthonormal_transpose hR
  obtain ⟨⟨r00, r01, r02⟩, ⟨r10, r11, r12⟩, ⟨r20, r21, r22⟩⟩ := R
  obtain ⟨ax, ay, az⟩ := a
  obtain ⟨bx, byy, bz⟩ := b
  simp only [Mat33.transpose, Vec3.dot] at h00 h11 h22 h01 h02 h12
  simp only [Mat33.mulVec, Vec3.dot]
  linear_combination (ax * bx) * h00 + (ay * byy) * h11 + (az * bz) * h22
    + (ax * byy + ay * bx) * h01 + (ax * bz + az * bx) * h02 + (ay * bz + az * byy) * h12

/-- Every body rotation of `quarterTurnState` is orthonormal. -/
theorem quarterTurnState_orthonormal (α : Type) [CommRing α] (b : Int) :
    (getBodyRotation (quarterTurnState α) b).IsOrthonormal := by
  unfold getBodyRotation quarterTurnState Mat33.IsOrthonormal
  by_cases h1 : b = 1
  · simp [h1, Vec3.dot]
  · by_cases h2 : b = 2
    · simp [h2, Vec3.dot]
    · simp [h1, h2, Mat33.one, Vec3.dot]

/-! ## The claims -/

/-- C1. Bend-stretch translation round trip: for a desired translation `(rx, ry, 0)` in the
x-y plane of F with `sqrt(rx^2+ry^2) >= 4*Eps`, `setQToFitTranslationImpl` followed by
`calcAcrossJointTransform` yields a transform whose translation is exactly `(rx, ry, 0)`. -/
theorem translation_fit_round_trip (Eps : ℝ) (n : RBNodeBendStretch) (q : Vector) (rx ry : ℝ)
    (hq : n.qIndex + 1 < q.length) (hd : Real.sqrt (rx ^ 2 + ry ^ 2) ≥ 4 * Eps) :
    (n.calcAcrossJointTransform (n.setQToFitTranslationImpl Eps ⟨rx, ry, 0⟩ q)).p
      = ⟨rx, ry, 0⟩ := by
  have hd2 : Real.sqrt (rx * rx + ry * ry) ≥ 4 * Eps := by simpa [sq] using hd
  rw [calcAcrossJointTransform_p, fromQ_setQToFitTranslationImpl Eps n _ q hq]
  simp only [hd2, if_true]
  rw [norm_mul_cos_atan2, norm_mul_sin_atan2]

/-- Witness for C1: the translation `(3, 4, 0)` with `Eps = 2^-52`, node at slot 0 of a
two-entry `q`. -/
theorem translation_fit_round_trip_witness :
    ((⟨0, 0⟩ : RBNodeBendStretch).calcAcrossJointTransform
      ((⟨0, 0⟩ : RBNodeBendStretch).setQToFitTranslationImpl (1 / 2 ^ 52) ⟨3, 4, 0⟩ [7, 9])).p
      = ⟨3, 4, 0⟩ :=
  translation_fit_round_trip (1 / 2 ^ 52) ⟨0, 0⟩ [7, 9] 3 4 (by simp) (by
    have h : Real.sqrt ((3 : ℝ) ^ 2 + 4 ^ 2) = 5 := by
      rw [show ((3 : ℝ) ^ 2 + 4 ^ 2) = 5 ^ 2 by norm_num]
      exact Real.sqrt_sq (by norm_num)
    rw [h]; norm_num)

/-- C6. Degenerate translation fit: when the x-y part of `p_FM` has norm strictly below
`4*Eps`, `setQToFitTranslationImpl` (a total function: no error is raised) leaves `q[0]`
unchanged and sets `q[1]` to `0`; for norm `>= 4*Eps`, boundary included, it sets
`q[0] = atan2(ry, rx)` and `q[1]` to the norm. -/
theorem degenerate_translation_fit (Eps : ℝ) (n : RBNodeBendStretch) (q : Vector)
    (p_FM : Vec3 ℝ) (hq : n.qIndex + 1 < q.length) :
    (Real.sqrt (p_FM.x ^ 2 + p_FM.y ^ 2) < 4 * Eps →
      (n.fromQ (n.setQToFitTranslationImpl Eps p_FM q)).x = (n.fromQ q).x ∧
      (n.fromQ (n.setQToFitTranslationImpl Eps p_FM q)).y = 0) ∧
    (Real.sqrt (p_FM.x ^ 2 + p_FM.y ^ 2) ≥ 4 * Eps →
      (n.fromQ (n.setQToFitTranslationImpl Eps p_FM q)).x = atan2 p_FM.y p_FM.x ∧
      (n.fromQ (n.setQToFitTranslationImpl Eps p_FM q)).y
        = Real.sqrt (p_FM.x ^ 2 + p_FM.y ^ 2)) := by
  rw [fromQ_setQToFitTranslationImpl Eps n p_FM q hq]
  simp only [sq]
  constructor
  · intro h
    rw [if_neg (not_le.mpr h)]
    exact ⟨rfl, rfl⟩
  · intro h
    rw [if_pos h]
    exact ⟨rfl, rfl⟩

/-- Witness for C6: with `Eps = 2^-52` the translation `(0, 0, 5)` has a zero x-y part, so
the angle `7` is kept and the stretch becomes `0`. -/
theorem degenerate_translation_fit_witness :
    (0 : Nat) + 1 < ([7, 9] : Vector).length ∧
    (((⟨0, 0⟩ : RBNodeBendStretch).fromQ
        ((⟨0, 0⟩ : RBNodeBendStretch).setQToFitTranslationImpl (1 / 2 ^ 52) ⟨0, 0, 5⟩ [7, 9])).x
        = 7 ∧
      ((⟨0, 0⟩ : RBNodeBendStretch).fromQ
        ((⟨0, 0⟩ : RBNodeBendStretch).setQToFitTranslationImpl (1 / 2 ^ 52) ⟨0, 0, 5⟩ [7, 9])).y
        = 0) := by
  refine ⟨by simp, ?_⟩
  have h := (degenerate_translation_fit (1 / 2 ^ 52) ⟨0, 0⟩ [7, 9] ⟨0, 0, 5⟩ (by simp)).1
    (by norm_num)
  simpa [RBNodeBendStretch.fromQ] using h

/-- C7. Closest-point translation fit: for any desired translation `(rx, ry, rz)` with
`sqrt(rx^2+ry^2) >= 4*Eps`, the fit followed by `calcAcrossJointTransform` yields the
translation `(rx, ry, 0)`, and no translation the joint can produce (the translation of
`calcAcrossJointTransform` at any `q`) is closer to `(rx, ry, rz)` in Euclidean distance. -/
theorem translation_fit_closest_point (Eps : ℝ) (n : RBNodeBendStretch) (q : Vector)
    (rx ry rz : ℝ) (hq : n.qIndex + 1 < q.length)
    (hd : Real.sqrt (rx ^ 2 + ry ^ 2) ≥ 4 * Eps) :
    (n.calcAcrossJointTransform (n.setQToFitTranslationImpl Eps ⟨rx, ry, rz⟩ q)).p
      = ⟨rx, ry, 0⟩ ∧
    ∀ q2 : Vector,
      Vec3.norm (⟨rx, ry, rz⟩ -
          (n.calcAcrossJointTransform (n.setQToFitTranslationImpl Eps ⟨rx, ry, rz⟩ q)).p)
        ≤ Vec3.norm (⟨rx, ry, rz⟩ - (n.calcAcrossJointTransform q2).p) := by
  have hd2 : Real.sqrt (rx * rx + ry * ry) ≥ 4 * Eps := by simpa [sq] using hd
  have hp : (n.calcAcrossJointTransform (n.setQToFitTranslationImpl Eps ⟨rx, ry, rz⟩ q)).p
      = ⟨rx, ry, 0⟩ := by
    rw [calcAcrossJointTransform_p, fromQ_setQToFitTranslationImpl Eps n _ q hq]
    simp only [hd2, if_true]
    rw [norm_mul_cos_atan2, norm_mul_sin_atan2]
  refine ⟨hp, fun q2 => ?_⟩
  rw [hp, calcAcrossJointTransform_p]
  generalize (n.fromQ q2).y * Real.cos (n.fromQ q2).x = a
  generalize (n.fromQ q2).y * Real.sin (n.fromQ q2).x = b
  show Real.sqrt _ ≤ Real.sqrt _
  apply Real.sqrt_le_sqrt
  show (rx - rx) * (rx - rx) + (ry - ry) * (ry - ry) + (rz - 0) * (rz - 0) ≤
    (rx - a) * (rx - a) + (ry - b) * (ry - b) + (rz - 0) * (rz - 0)
  nlinarith [mul_self_nonneg (rx - a), mul_self_nonneg (ry - b)]

/-- Witness for C7: the translation `(3, 4, 12)`, outside the x-y plane, is fitted to
`(3, 4, 0)`. -/
theorem translation_fit_closest_point_witness :
    (0 : Nat) + 1 < ([7, 9] : Vector).length ∧
    ((⟨0, 0⟩ : RBNodeBendStretch).calcAcrossJointTransform
      ((⟨0, 0⟩ : RBNodeBendStretch).setQToFitTranslationImpl (1 / 2 ^ 52) ⟨3, 4, 12⟩ [7, 9])).p
      = ⟨3, 4, 0⟩ :=
  ⟨by simp, (translation_fit_closest_point (1 / 2 ^ 52) ⟨0, 0⟩ [7, 9] 3 4 12 (by simp) (by
    have h : Real.sqrt ((3 : ℝ) ^ 2 + 4 ^ 2) = 5 := by
      rw [show ((3 : ℝ) ^ 2 + 4 ^ 2) = 5 ^ 2 by norm_num]
      exact Real.sqrt_sq (by norm_num)
    rw [h]; norm_num)).1⟩

/-- C8. Linear-velocity fit with significant translation: when `|q1| >= SignificantReal`
(a positive constant), the `u` produced by `setUToFitLinearVelocityImpl` makes the linear
part of `H_FM(q)*u` equal to `(vx, vy, 0)`, and the fitted `u` does not depend on `vz`. -/
theorem linear_velocity_fit_significant (SignificantReal : ℝ) (n : RBNodeBendStretch)
    (q u : Vector) (vx vy vz : ℝ) (hu : n.uIndex + 1 < u.length) (hS : 0 < SignificantReal)
    (hx : |(n.fromQ q).y| ≥ SignificantReal) :
    ((calcAcrossJointVelocityJacobian (n.calcAcrossJointTransform q)).mulU
        (n.fromU (n.setUToFitLinearVelocityImpl SignificantReal q ⟨vx, vy, vz⟩ u))).v
      = ⟨vx, vy, 0⟩ ∧
    ∀ vz2 : ℝ, n.setUToFitLinearVelocityImpl SignificantReal q ⟨vx, vy, vz2⟩ u
      = n.setUToFitLinearVelocityImpl SignificantReal q ⟨vx, vy, vz⟩ u := by
  constructor
  · have hx0 : (n.fromQ q).y ≠ 0 := by
      intro h0
      rw [h0, abs_zero] at hx
      linarith
    rw [fromU_setUToFitLinearVelocityImpl SignificantReal n q _ u hu, if_neg (not_lt.mpr hx)]
    have hcs := Real.cos_sq_add_sin_sq (n.fromQ q).x
    simp only [calcAcrossJointVelocityJacobian, HType.mulU,
      RBNodeBendStretch.calcAcrossJointTransform, Rotation.setRotationFromAngleAboutZ,
      Mat33.mulVec, Mat33.colX, Vec3.dot, Vec3.cross, SpatialVec.scale, Vec3.scale, Vec3.fill]
    generalize (n.fromQ q).y = x at hx0
    generalize Real.cos (n.fromQ q).x = c at hcs
    generalize Real.sin (n.fromQ q).x = s at hcs
    show (⟨_, _, _⟩ : Vec3 ℝ) = _
    congr 1
    · field_simp
      linear_combination (x * vx) * hcs
    · field_simp
      linear_combination (x * vy) * hcs
    · ring
  · intro vz2
    simp [RBNodeBendStretch.setUToFitLinearVelocityImpl, Rotation.setRotationFromAngleAboutZ,
      Mat33.transpose, Mat33.mulVec, Vec3.dot]

/-- Witness for C8: `q = (0, 2)`, desired velocity `(1, 2, 3)`, `SignificantReal = 10^-14`. -/
theorem linear_velocity_fit_significant_witness :
    (0 : ℝ) < 1 / 10 ^ 14 ∧
    ((calcAcrossJointVelocityJacobian
        ((⟨0, 0⟩ : RBNodeBendStretch).calcAcrossJointTransform [0, 2])).mulU
        ((⟨0, 0⟩ : RBNodeBendStretch).fromU
          ((⟨0, 0⟩ : RBNodeBendStretch).setUToFitLinearVelocityImpl (1 / 10 ^ 14) [0, 2]
            ⟨1, 2, 3⟩ [5, 6]))).v = ⟨1, 2, 0⟩ :=
  ⟨by norm_num, (linear_velocity_fit_significant (1 / 10 ^ 14) ⟨0, 0⟩ [0, 2] [5, 6] 1 2 3
    (by simp) (by norm_num) (by simp [RBNodeBendStretch.fromQ]; norm_num)).1⟩

/-- C4 (evaluation of the code). With body A the ground (identity pose, at rest) and body B
spinning about its own origin at `(1, 0, 0)`, the origin of B has ground velocity zero:
`calcStationVelocity` returns `(0, 0, 0)`, but `calcStationVelocityInBody` relative to ground
returns `(0, 1, 0)`, which is not `~R_GA * (v_station - v_coincident point of A)`. -/
theorem calcStationVelocityInBody_ground_mismatch :
    calcStationVelocity spinningBodyState 1 ⟨0, 0, 0⟩ = ⟨0, 0, 0⟩ ∧
    calcStationVelocityInBody spinningBodyState 1 ⟨0, 0, 0⟩ 0 = ⟨0, 1, 0⟩ ∧
    calcStationVelocityInBody spinningBodyState 1 ⟨0, 0, 0⟩ 0 ≠
      (getBodyRotation spinningBodyState 0).transpose.mulVec
        (calcStationVelocity spinningBodyState 1 ⟨0, 0, 0⟩ -
          calcStationVelocity spinningBodyState 0
            (calcStationLocationInBody spinningBodyState 1 ⟨0, 0, 0⟩ 0)) := by
  decide

/-- C10. Postcondition of `resetForces`: whatever the three arrays held, afterwards
`bodyForces` is `getNBodies()` zeros, `particleForces` is `getNParticles()` zeros and
`mobilityForces` is `getNMobilities()` zeros (so each has exactly that many entries, all
zero), and resetting twice gives the same arrays as resetting once. -/
theorem resetForces_postcondition {α : Type} [Zero α] (m : MatterSubsystem) (f : Forces α) :
    (m.resetForces f).bodyForces = List.replicate m.getNBodies 0 ∧
    (m.resetForces f).particleForces = List.replicate m.getNParticles 0 ∧
    (m.resetForces f).mobilityForces = List.replicate m.getNMobilities 0 ∧
    (m.resetForces f).bodyForces.length = m.getNBodies ∧
    (m.resetForces f).particleForces.length = m.getNParticles ∧
    (m.resetForces f).mobilityForces.length = m.getNMobilities ∧
    m.resetForces (m.resetForces f) = m.resetForces f := by
  simp only [MatterSubsystem.resetForces, setToZero_resize, List.length_replicate, and_self]

/-- C2. Jacobian consistency of the bend-stretch joint (non-reversed): along any trajectory
`q(t)` with `u = dq/dt`, the spatial velocity `H_FM(q)*u` has angular part `(0, 0, u0)`, its
linear part is the time derivative of the translation of `calcAcrossJointTransform`, and
every axis (column) of the rotation of `calcAcrossJointTransform` has time derivative
`w x axis` for that angular part `w`. -/
theorem jacobian_consistency (n : RBNodeBendStretch) (q : ℝ → Vector) (u : Vector) (t : ℝ)
    (h : n.IsTrajectoryAt q u t) :
    (n.V_FM (q t) u).w = ⟨0, 0, (n.fromU u).x⟩ ∧
    Vec3.HasTimeDerivAt (fun s => (n.calcAcrossJointTransform (q s)).p) (n.V_FM (q t) u).v t ∧
    Vec3.HasTimeDerivAt (fun s => (n.calcAcrossJointTransform (q s)).R.colX)
      ((n.V_FM (q t) u).w.cross (n.calcAcrossJointTransform (q t)).R.colX) t ∧
    Vec3.HasTimeDerivAt (fun s => (n.calcAcrossJointTransform (q s)).R.colY)
      ((n.V_FM (q t) u).w.cross (n.calcAcrossJointTransform (q t)).R.colY) t ∧
    Vec3.HasTimeDerivAt (fun s => (n.calcAcrossJointTransform (q s)).R.colZ)
      ((n.V_FM (q t) u).w.cross (n.calcAcrossJointTransform (q t)).R.colZ) t := by
  obtain ⟨h0, h1⟩ := h
  have hc := h0.cos
  have hs := h0.sin
  have hpx := hc.mul h1
  have hpy := hs.mul h1
  have hns := hs.neg
  have hz : HasDerivAt (fun _ : ℝ => (0 : ℝ)) 0 t := hasDerivAt_const t 0
  have ho : HasDerivAt (fun _ : ℝ => (1 : ℝ)) 0 t := hasDerivAt_const t 1
  refine ⟨?_, ⟨?_, ?_, ?_⟩, ⟨?_, ?_, ?_⟩, ⟨?_, ?_, ?_⟩, ⟨?_, ?_, ?_⟩⟩
  · simp [RBNodeBendStretch.V_FM, RBNodeBendStretch.H_FM, calcAcrossJointVelocityJacobian,
      HType.mulU, SpatialVec.scale, Vec3.scale, Vec3.fill, spatialVec_add_def, vec3_add_def]
  all_goals
    simp only [RBNodeBendStretch.V_FM, RBNodeBendStretch.H_FM, calcAcrossJointVelocityJacobian,
      HType.mulU, SpatialVec.scale, Vec3.scale, Vec3.fill, spatialVec_add_def, vec3_add_def,
      RBNodeBendStretch.calcAcrossJointTransform, Rotation.setRotationFromAngleAboutZ,
      Mat33.mulVec, Mat33.colX, Mat33.colY, Mat33.colZ, Vec3.dot, Vec3.cross,
      mul_zero, add_zero, zero_mul, sub_zero, zero_sub, mul_one, one_mul, zero_add]
  · convert hpx using 1; ring
  · convert hpy using 1; ring
  · exact hz
  · convert hc using 1; ring
  · convert hs using 1; ring
  · exact hz
  · convert hns using 1; ring
  · convert hc using 1; ring
  · exact hz
  · exact hz
  · exact hz
  · convert ho using 1

/-- Witness for C2: the trajectory `q(s) = (s, 2 s)` at time `0` with `u = (1, 2)`; the
angular part of `H_FM(q)*u` is `(0, 0, 1)`. -/
theorem jacobian_consistency_witness :
    ((⟨0, 0⟩ : RBNodeBendStretch).V_FM ((fun s : ℝ => ([s, 2 * s] : Vector)) 0) [1, 2]).w
      = ⟨0, 0, ((⟨0, 0⟩ : RBNodeBendStretch).fromU [1, 2]).x⟩ :=
  (jacobian_consistency ⟨0, 0⟩ (fun s : ℝ => ([s, 2 * s] : Vector)) [1, 2] 0
    ⟨by simpa [RBNodeBendStretch.fromQ, RBNodeBendStretch.fromU] using hasDerivAt_id (0 : ℝ),
     by simpa [RBNodeBendStretch.fromQ, RBNodeBendStretch.fromU] using
        (hasDerivAt_id (0 : ℝ)).const_mul (2 : ℝ)⟩).1

/-- C3. HDot consistency of the bend-stretch joint: along any trajectory `q(t)` with
`u = dq/dt`, with the cached cross-joint velocity `V_FM = H_FM(q)*u`, both parts of both
columns of `HDot_FM` from `calcAcrossJointVelocityJacobianDot` are the time derivatives of
the corresponding parts of the columns of `H_FM` from `calcAcrossJointVelocityJacobian`. -/
theorem jacobianDot_consistency (n : RBNodeBendStretch) (q : ℝ → Vector) (u : Vector) (t : ℝ)
    (h : n.IsTrajectoryAt q u t) :
    Vec3.HasTimeDerivAt (fun s => (n.H_FM (q s)).c0.w) (n.HDot_FM (q t) u).c0.w t ∧
    Vec3.HasTimeDerivAt (fun s => (n.H_FM (q s)).c0.v) (n.HDot_FM (q t) u).c0.v t ∧
    Vec3.HasTimeDerivAt (fun s => (n.H_FM (q s)).c1.w) (n.HDot_FM (q t) u).c1.w t ∧
    Vec3.HasTimeDerivAt (fun s => (n.H_FM (q s)).c1.v) (n.HDot_FM (q t) u).c1.v t := by
  obtain ⟨h0, h1⟩ := h
  have hc := h0.cos
  have hs := h0.sin
  have hpx := hc.mul h1
  have hnpy := (hs.mul h1).neg
  have hz : HasDerivAt (fun _ : ℝ => (0 : ℝ)) 0 t := hasDerivAt_const t 0
  have ho : HasDerivAt (fun _ : ℝ => (1 : ℝ)) 0 t := hasDerivAt_const t 1
  refine ⟨⟨?_, ?_, ?_⟩, ⟨?_, ?_, ?_⟩, ⟨?_, ?_, ?_⟩, ⟨?_, ?_, ?_⟩⟩
  all_goals
    simp only [RBNodeBendStretch.HDot_FM, calcAcrossJointVelocityJacobianDot,
      RBNodeBendStretch.V_FM, RBNodeBendStretch.H_FM, calcAcrossJointVelocityJacobian,
      HType.mulU, SpatialVec.scale, Vec3.scale, Vec3.fill, spatialVec_add_def, vec3_add_def,
      RBNodeBendStretch.calcAcrossJointTransform, Rotation.setRotationFromAngleAboutZ,
      Mat33.mulVec, Mat33.colX, Vec3.dot, Vec3.cross,
      mul_zero, add_zero, zero_mul, sub_zero, zero_sub, mul_one, one_mul, zero_add]
  · exact hz
  · exact hz
  · exact ho
  · convert hnpy using 1; ring
  · convert hpx using 1; ring
  · exact hz
  · exact hz
  · exact hz
  · exact hz
  · convert hc using 1; ring
  · convert hs using 1; ring
  · exact hz

/-- Witness for C3: the trajectory `q(s) = (s, 2 s)` at time `0` with `u = (1, 2)`; the
linear part of the second column of `HDot_FM` is the derivative of that of `H_FM`. -/
theorem jacobianDot_consistency_witness :
    Vec3.HasTimeDerivAt
      (fun s => ((⟨0, 0⟩ : RBNodeBendStretch).H_FM ((fun s : ℝ => ([s, 2 * s] : Vector)) s)).c1.v)
      ((⟨0, 0⟩ : RBNodeBendStretch).HDot_FM ((fun s : ℝ => ([s, 2 * s] : Vector)) 0) [1, 2]).c1.v
      0 :=
  (jacobianDot_consistency ⟨0, 0⟩ (fun s : ℝ => ([s, 2 * s] : Vector)) [1, 2] 0
    ⟨by simpa [RBNodeBendStretch.fromQ, RBNodeBendStretch.fromU] using hasDerivAt_id (0 : ℝ),
     by simpa [RBNodeBendStretch.fromQ, RBNodeBendStretch.fromU] using
        (hasDerivAt_id (0 : ℝ)).const_mul (2 : ℝ)⟩).2.2.2

/-- C5 (counterexample). With `Eps = 2^-52` and `SignificantReal = 10^-14`, a translation of
magnitude `10^-15` is not below `4*Eps`: the translation fit treats it as significant and
rewrites the angle (from `1` to `atan2(0, 10^-15) = 0`), yet the linear-velocity fit at
`q1 = 10^-15` treats it as zero and leaves `u[0] = 5` unchanged instead of storing
`v_FM_M[1]/q1 = 10^15`. -/
theorem velocity_fit_threshold_differs :
    ¬ (|(1 / 10 ^ 15 : ℝ)| < 4 * (1 / 2 ^ 52)) ∧
    (⟨0, 0⟩ : RBNodeBendStretch).fromQ
      ((⟨0, 0⟩ : RBNodeBendStretch).setQToFitTranslationImpl (1 / 2 ^ 52)
        ⟨1 / 10 ^ 15, 0, 0⟩ [1, 0]) = ⟨0, 1 / 10 ^ 15⟩ ∧
    ((⟨0, 0⟩ : RBNodeBendStretch).fromU
      ((⟨0, 0⟩ : RBNodeBendStretch).setUToFitLinearVelocityImpl (1 / 10 ^ 14)
        [0, 1 / 10 ^ 15] ⟨0, 1, 0⟩ [5, 0])).x = 5 ∧
    (-Real.sin 0 * (0 : ℝ) + Real.cos 0 * 1) / (1 / 10 ^ 15) ≠ (5 : ℝ) := by
  have habs : |(1 / 10 ^ 15 : ℝ)| = 1 / 10 ^ 15 := abs_of_pos (by norm_num)
  have hsqrt : Real.sqrt ((1 / 10 ^ 15 : ℝ) * (1 / 10 ^ 15) + 0 * 0) = 1 / 10 ^ 15 := by
    rw [mul_zero, add_zero]
    exact Real.sqrt_mul_self (by norm_num)
  refine ⟨?_, ?_, ?_, ?_⟩
  · rw [habs]; norm_num
  · rw [fromQ_setQToFitTranslationImpl _ _ _ _ (by simp)]
    simp only [hsqrt]
    rw [if_pos (by norm_num)]
    have harg : atan2 0 (1 / 10 ^ 15) = 0 := by
      have he : (⟨1 / 10 ^ 15, 0⟩ : ℂ) = ((1 / 10 ^ 15 : ℝ) : ℂ) := rfl
      unfold atan2
      rw [he]
      exact Complex.arg_ofReal_of_nonneg (by norm_num)
    rw [harg]
  · rw [fromU_setUToFitLinearVelocityImpl _ _ _ _ _ (by simp)]
    have hq : ((⟨0, 0⟩ : RBNodeBendStretch).fromQ [0, 1 / 10 ^ 15]).y = 1 / 10 ^ 15 := by
      simp [RBNodeBendStretch.fromQ]
    rw [hq, habs, if_pos (by norm_num)]
    simp [RBNodeBendStretch.fromU]
  · rw [Real.sin_zero, Real.cos_zero]
    norm_num

/-- C5 (amended). `setUToFitLinearVelocityImpl` treats the translation coordinate as zero
exactly when `|q1| < SignificantReal`: in that case only `u[1]` is written (to the component of
`v_FM` along M's x axis) and `u[0]` is unchanged, and otherwise `u[0]` is set to
`v_FM_M[1] / q1`. The threshold is `SignificantReal`, not the `4*Eps` of the translation
fit. -/
theorem velocity_fit_guard (SignificantReal : ℝ) (n : RBNodeBendStretch) (q u : Vector)
    (v_FM : Vec3 ℝ) (hu : n.uIndex + 1 < u.length) :
    (|(n.fromQ q).y| < SignificantReal →
      n.setUToFitLinearVelocityImpl SignificantReal q v_FM u
        = n.toU u 1 (Real.cos (n.fromQ q).x * v_FM.x + Real.sin (n.fromQ q).x * v_FM.y) ∧
      (n.fromU (n.setUToFitLinearVelocityImpl SignificantReal q v_FM u)).x = (n.fromU u).x) ∧
    (|(n.fromQ q).y| ≥ SignificantReal →
      (n.fromU (n.setUToFitLinearVelocityImpl SignificantReal q v_FM u)).x
        = (-Real.sin (n.fromQ q).x * v_FM.x + Real.cos (n.fromQ q).x * v_FM.y) / (n.fromQ q).y) := by
  constructor
  · intro hx
    constructor
    · simp [RBNodeBendStretch.setUToFitLinearVelocityImpl, hx,
        Rotation.setRotationFromAngleAboutZ, Mat33.transpose, Mat33.mulVec, Vec3.dot]
    · rw [fromU_setUToFitLinearVelocityImpl SignificantReal n q v_FM u hu, if_pos hx]
  · intro hx
    rw [fromU_setUToFitLinearVelocityImpl SignificantReal n q v_FM u hu,
      if_neg (not_lt.mpr hx)]

/-- Witness for C5 (amended): at `q1 = 10^-15` with `SignificantReal = 10^-14` the prior
`u[0] = 5` is kept. -/
theorem velocity_fit_guard_witness :
    (0 : Nat) + 1 < ([5, 0] : Vector).length ∧
    ((⟨0, 0⟩ : RBNodeBendStretch).fromU
      ((⟨0, 0⟩ : RBNodeBendStretch).setUToFitLinearVelocityImpl (1 / 10 ^ 14)
        [0, 1 / 10 ^ 15] ⟨0, 1, 0⟩ [5, 0])).x
      = ((⟨0, 0⟩ : RBNodeBendStretch).fromU [5, 0]).x :=
  ⟨by simp, ((velocity_fit_guard (1 / 10 ^ 14) ⟨0, 0⟩ [0, 1 / 10 ^ 15] [5, 0] ⟨0, 1, 0⟩
    (by simp)).1 (by
      have hq : ((⟨0, 0⟩ : RBNodeBendStretch).fromQ [0, 1 / 10 ^ 15]).y = 1 / 10 ^ 15 := by
        simp [RBNodeBendStretch.fromQ]
      rw [hq, abs_of_pos (by norm_num)]
      norm_num)).2⟩

/-- C9. Bend-stretch rotation round trip: for a rotation `R_FM` about the z axis by an angle
`θ` in `(-π, π]`, `setQToFitRotationImpl` stores `θ` in `q[0]`, and `calcAcrossJointTransform`
on the resulting `q` yields a transform whose rotation equals `R_FM` (`Eps` being small,
`4*Eps < 1`, so that a z rotation is away from the singularity of the angle extraction). -/
theorem rotation_fit_round_trip (Eps : ℝ) (n : RBNodeBendStretch) (q : Vector) (θ : ℝ)
    (hq : n.qIndex < q.length) (hE : 4 * Eps < 1) (hθ : -Real.pi < θ ∧ θ ≤ Real.pi) :
    (n.fromQ (n.setQToFitRotationImpl Eps (Rotation.setRotationFromAngleAboutZ θ) q)).x = θ ∧
    (n.calcAcrossJointTransform
        (n.setQToFitRotationImpl Eps (Rotation.setRotationFromAngleAboutZ θ) q)).R
      = Rotation.setRotationFromAngleAboutZ θ := by
  have hsum : Real.sqrt ((Real.cos θ ^ 2 + (-Real.sin θ) ^ 2 + (0 : ℝ) ^ 2 + 1 ^ 2) / 2) = 1 := by
    have h1 : (Real.cos θ ^ 2 + (-Real.sin θ) ^ 2 + (0 : ℝ) ^ 2 + 1 ^ 2) / 2 = 1 := by
      have := Real.cos_sq_add_sin_sq θ
      linear_combination (1 / 2 : ℝ) * this
    rw [h1, Real.sqrt_one]
  have harg : atan2 (Real.sin θ) (Real.cos θ) = θ := by
    have h := Complex.arg_cos_add_sin_mul_I (θ := θ) ⟨hθ.1, hθ.2⟩
    have he : (⟨Real.cos θ, Real.sin θ⟩ : ℂ)
        = Complex.cos (θ : ℂ) + Complex.sin (θ : ℂ) * Complex.I := by
      apply Complex.ext <;>
        simp [Complex.cos_ofReal_re, Complex.sin_ofReal_re, Complex.cos_ofReal_im,
          Complex.sin_ofReal_im]
    unfold atan2
    rw [he]
    exact h
  have hx : (n.fromQ (n.setQToFitRotationImpl Eps (Rotation.setRotationFromAngleAboutZ θ) q)).x
      = θ := by
    unfold RBNodeBendStretch.setQToFitRotationImpl Rotation.convertRotationToBodyFixedXYZ
      RBNodeBendStretch.fromQ RBNodeBendStretch.toQ
    simp only [Rotation.setRotationFromAngleAboutZ, hsum, Nat.add_zero]
    rw [if_pos (by linarith), getD_set_eq _ _ _ hq, neg_neg, harg]
  refine ⟨hx, ?_⟩
  unfold RBNodeBendStretch.calcAcrossJointTransform
  simp only [hx]

/-- Witness for C9: the rotation by one radian about z, with `Eps = 2^-52`. -/
theorem rotation_fit_round_trip_witness :
    (4 : ℝ) * (1 / 2 ^ 52) < 1 ∧ (-Real.pi < 1 ∧ (1 : ℝ) ≤ Real.pi) ∧
    ((⟨0, 0⟩ : RBNodeBendStretch).calcAcrossJointTransform
        ((⟨0, 0⟩ : RBNodeBendStretch).setQToFitRotationImpl (1 / 2 ^ 52)
          (Rotation.setRotationFromAngleAboutZ 1) [7, 9])).R
      = Rotation.setRotationFromAngleAboutZ 1 :=
  ⟨by norm_num, ⟨by linarith [Real.pi_gt_three], by linarith [Real.pi_gt_three]⟩,
    (rotation_fit_round_trip (1 / 2 ^ 52) ⟨0, 0⟩ [7, 9] 1 (by simp) (by norm_num)
      ⟨by linarith [Real.pi_gt_three], by linarith [Real.pi_gt_three]⟩).2⟩

/-- C11. `calcStationLocationInBody` returns the station of body A at the same location in
space: for body A with an orthonormal rotation, the ground location of the returned station
of A equals the ground location of `stationB` of B. -/
theorem calcStationLocationInBody_same_location {α : Type} [CommRing α] (s : State α)
    (bodyB bodyA : Int) (stationB : Vec3 α) (hA : (getBodyRotation s bodyA).IsOrthonormal) :
    calcStationLocation s bodyA (calcStationLocationInBody s bodyB stationB bodyA)
      = calcStationLocation s bodyB stationB := by
  unfold calcStationLocationInBody Transform.invMulVec
  generalize calcStationLocation s bodyB stationB = r
  unfold calcStationLocation Transform.mulVec
  rw [show (s.getBodyPosition bodyA).R = getBodyRotation s bodyA from rfl,
    Mat33.mulVec_transpose_mulVec _ hA]
  simp only [vec3_sub_def, vec3_add_def, sub_add_cancel]

/-- Witness for C11: station `(1, 1, 1)` of body 1, seen from body 2, in `quarterTurnState`. -/
theorem calcStationLocationInBody_same_location_witness :
    calcStationLocation (quarterTurnState ℤ) 2
        (calcStationLocationInBody (quarterTurnState ℤ) 1 ⟨1, 1, 1⟩ 2)
      = calcStationLocation (quarterTurnState ℤ) 1 ⟨1, 1, 1⟩ :=
  calcStationLocationInBody_same_location (quarterTurnState ℤ) 1 2 ⟨1, 1, 1⟩
    (quarterTurnState_orthonormal ℤ 2)

/-- C12. `calcVectorOrientationInBody` re-expresses the same vector: for orthonormal body
rotations, the vector returned for body A, re-expressed in ground, is `vectorB` re-expressed
in ground; and re-expressing a vector of B in B itself returns it unchanged. -/
theorem calcVectorOrientationInBody_same_vector {α : Type} [CommRing α] (s : State α)
    (bodyB bodyA : Int) (vectorB : Vec3 α) (hA : (getBodyRotation s bodyA).IsOrthonormal)
    (hB : (getBodyRotation s bodyB).IsOrthonormal) :
    calcVectorOrientation s bodyA (calcVectorOrientationInBody s bodyB vectorB bodyA)
      = calcVectorOrientation s bodyB vectorB ∧
    calcVectorOrientationInBody s bodyB vectorB bodyB = vectorB := by
  constructor
  · unfold calcVectorOrientationInBody
    generalize calcVectorOrientation s bodyB vectorB = r
    unfold calcVectorOrientation
    exact Mat33.mulVec_transpose_mulVec _ hA r
  · unfold calcVectorOrientationInBody calcVectorOrientation
    exact Mat33.transpose_mulVec_mulVec _ hB vectorB

/-- Witness for C12: the vector `(1, 2, 3)` of body 1, re-expressed in body 2 and in body 1, in
`quarterTurnState`. -/
theorem calcVectorOrientationInBody_same_vector_witness :
    calcVectorOrientation (quarterTurnState ℤ) 2
        (calcVectorOrientationInBody (quarterTurnState ℤ) 1 ⟨1, 2, 3⟩ 2)
      = calcVectorOrientation (quarterTurnState ℤ) 1 ⟨1, 2, 3⟩ ∧
    calcVectorOrientationInBody (quarterTurnState ℤ) 1 ⟨1, 2, 3⟩ 1 = ⟨1, 2, 3⟩ :=
  calcVectorOrientationInBody_same_vector (quarterTurnState ℤ) 1 2 ⟨1, 2, 3⟩
    (quarterTurnState_orthonormal ℤ 2) (quarterTurnState_orthonormal ℤ 1)

/-- C20. Self-relative velocity is zero: `calcStationVelocityInBody(s, B, stationB, B)` is the
zero vector for every state, and, the rotation of B being orthonormal,
`calcStationLocationInBody(s, B, stationB, B) = stationB`. -/
theorem station_relative_to_own_body {α : Type} [CommRing α] (s : State α) (bodyB : Int)
    (stationB : Vec3 α) (hB : (getBodyRotation s bodyB).IsOrthonormal) :
    calcStationVelocityInBody s bodyB stationB bodyB = 0 ∧
    calcStationLocationInBody s bodyB stationB bodyB = stationB := by
  constructor
  · show _ = (⟨0, 0, 0⟩ : Vec3 α)
    simp [calcStationVelocityInBody, spatialVec_sub_def, vec3_sub_def, vec3_add_def,
      Vec3.cross, Mat33.mulVec, Vec3.dot]
  · unfold calcStationLocationInBody Transform.invMulVec calcStationLocation Transform.mulVec
    have h : (s.getBodyPosition bodyB).R.mulVec stationB + (s.getBodyPosition bodyB).p
        - (s.getBodyPosition bodyB).p = (s.getBodyPosition bodyB).R.mulVec stationB := by
      simp only [vec3_sub_def, vec3_add_def, add_sub_cancel_right]
    rw [h]
    exact Mat33.transpose_mulVec_mulVec _ hB stationB

/-- Witness for C20: station `(1, 1, 1)` of body 1 in `quarterTurnState`. -/
theorem station_relative_to_own_body_witness :
    calcStationVelocityInBody (quarterTurnState ℤ) 1 ⟨1, 1, 1⟩ 1 = 0 ∧
    calcStationLocationInBody (quarterTurnState ℤ) 1 ⟨1, 1, 1⟩ 1 = ⟨1, 1, 1⟩ :=
  station_relative_to_own_body (quarterTurnState ℤ) 1 ⟨1, 1, 1⟩
    (quarterTurnState_orthonormal ℤ 1)

/-- C19. Rigidity of the station operators: for a body with an orthonormal rotation, the
distance between the ground locations of two stations equals the distance between the
stations, and `calcVectorOrientation` preserves the length of a vector. -/
theorem station_operators_rigid (s : State ℝ) (bodyB : Int) (s1 s2 v : Vec3 ℝ)
    (hB : (getBodyRotation s bodyB).IsOrthonormal) :
    Vec3.norm (calcStationLocation s bodyB s1 - calcStationLocation s bodyB s2)
      = Vec3.norm (s1 - s2) ∧
    Vec3.norm (calcVectorOrientation s bodyB v) = Vec3.norm v := by
  have hn : ∀ a : Vec3 ℝ, Vec3.norm a = Real.sqrt (a.dot a) := fun a => rfl
  have hlin : calcStationLocation s bodyB s1 - calcStationLocation s bodyB s2
      = (getBodyRotation s bodyB).mulVec (s1 - s2) := by
    simp only [calcStationLocation, Transform.mulVec, getBodyRotation, Mat33.mulVec, Vec3.dot,
      vec3_sub_def, vec3_add_def, Vec3.mk.injEq]
    refine ⟨?_, ?_, ?_⟩ <;> ring
  constructor
  · rw [hlin, hn, hn, Mat33.dot_mulVec _ hB]
  · unfold calcVectorOrientation
    rw [hn, hn, Mat33.dot_mulVec _ hB]

/-- Witness for C19: stations `(1, 0, 0)` and `(0, 2, 0)` and the vector `(3, 4, 0)` of body 1
in `quarterTurnState`. -/
theorem station_operators_rigid_witness :
    Vec3.norm (calcStationLocation (quarterTurnState ℝ) 1 ⟨1, 0, 0⟩
        - calcStationLocation (quarterTurnState ℝ) 1 ⟨0, 2, 0⟩)
      = Vec3.norm ((⟨1, 0, 0⟩ : Vec3 ℝ) - ⟨0, 2, 0⟩) ∧
    Vec3.norm (calcVectorOrientation (quarterTurnState ℝ) 1 ⟨3, 4, 0⟩)
      = Vec3.norm (⟨3, 4, 0⟩ : Vec3 ℝ) :=
  station_operators_rigid (quarterTurnState ℝ) 1 ⟨1, 0, 0⟩ ⟨0, 2, 0⟩ ⟨3, 4, 0⟩
    (quarterTurnState_orthonormal ℝ 1)

/-- C14. Bend-stretch forward kinematics: `calcAcrossJointTransform` produces the rotation by
`q0` about z (whose z axis is F's z axis) and the translation `q1` along the rotated x axis,
`p = (q1*cos q0, q1*sin q0, 0)`; the translation lies in F's x-y plane and has magnitude
`|q1|`. -/
theorem forward_kinematics (n : RBNodeBendStretch) (q : Vector) :
    (n.calcAcrossJointTransform q).R = Rotation.setRotationFromAngleAboutZ (n.fromQ q).x ∧
    (n.calcAcrossJointTransform q).R.colZ = ⟨0, 0, 1⟩ ∧
    (n.calcAcrossJointTransform q).p = (n.calcAcrossJointTransform q).R.colX.scale (n.fromQ q).y ∧
    (n.calcAcrossJointTransform q).p
      = ⟨(n.fromQ q).y * Real.cos (n.fromQ q).x, (n.fromQ q).y * Real.sin (n.fromQ q).x, 0⟩ ∧
    (n.calcAcrossJointTransform q).p.z = 0 ∧
    Vec3.norm (n.calcAcrossJointTransform q).p = |(n.fromQ q).y| := by
  refine ⟨rfl, rfl, ?_, calcAcrossJointTransform_p n q, ?_, ?_⟩
  · rw [calcAcrossJointTransform_p]
    simp [RBNodeBendStretch.calcAcrossJointTransform, Rotation.setRotationFromAngleAboutZ,
      Mat33.colX, Vec3.scale, mul_comm]
  · rw [calcAcrossJointTransform_p]
  · rw [calcAcrossJointTransform_p]
    unfold Vec3.norm
    have h : (n.fromQ q).y * Real.cos (n.fromQ q).x * ((n.fromQ q).y * Real.cos (n.fromQ q).x)
        + (n.fromQ q).y * Real.sin (n.fromQ q).x * ((n.fromQ q).y * Real.sin (n.fromQ q).x)
        + 0 * 0 = (n.fromQ q).y ^ 2 := by
      linear_combination ((n.fromQ q).y ^ 2) * Real.cos_sq_add_sin_sq (n.fromQ q).x
    rw [h, Real.sqrt_sq_eq_abs]

/-- C13. `calcStationVelocity` is the ground-frame velocity of a body-fixed station: when body
B moves rigidly with the spatial velocity `V_GB = (w, v)` (`dR/dt = w x R`, `dp/dt = v`), the
time derivative of `calcStationLocation(s, B, stationB)` is
`calcStationVelocity(s, B, stationB)`, which is `v + w x (R*stationB)`. -/
theorem calcStationVelocity_is_derivative (s : ℝ → State ℝ) (bodyB : Int) (stationB : Vec3 ℝ)
    (t : ℝ) (h : HasSpatialVelocityAt s bodyB t) :
    Vec3.HasTimeDerivAt (fun τ => calcStationLocation (s τ) bodyB stationB)
      (calcStationVelocity (s t) bodyB stationB) t ∧
    calcStationVelocity (s t) bodyB stationB
      = getBodyLinearVelocity (s t) bodyB
        + (getBodyAngularVelocity (s t) bodyB).cross
            ((getBodyRotation (s t) bodyB).mulVec stationB) := by
  refine ⟨?_, rfl⟩
  obtain ⟨⟨hxx, hxy, hxz⟩, ⟨hyx, hyy, hyz⟩, ⟨hzx, hzy, hzz⟩, ⟨hpx, hpy, hpz⟩⟩ := h
  simp only [Mat33.colX, Mat33.colY, Mat33.colZ, Vec3.cross, getBodyRotation,
    getBodyAngularVelocity, getBodyLocation, getBodyLinearVelocity, Transform.T]
    at hxx hxy hxz hyx hyy hyz hzx hzy hzz hpx hpy hpz
  refine ⟨?_, ?_, ?_⟩
  · have hd := (((hxx.mul_const stationB.x).add (hyx.mul_const stationB.y)).add
      (hzx.mul_const stationB.z)).add hpx
    simp only [calcStationLocation, calcStationVelocity, calcVectorOrientation, getBodyRotation,
      Transform.mulVec, Mat33.mulVec, Vec3.dot, Vec3.cross, vec3_add_def]
    convert hd using 1
    ring
  · have hd := (((hxy.mul_const stationB.x).add (hyy.mul_const stationB.y)).add
      (hzy.mul_const stationB.z)).add hpy
    simp only [calcStationLocation, calcStationVelocity, calcVectorOrientation, getBodyRotation,
      Transform.mulVec, Mat33.mulVec, Vec3.dot, Vec3.cross, vec3_add_def]
    convert hd using 1
    ring
  · have hd := (((hxz.mul_const stationB.x).add (hyz.mul_const stationB.y)).add
      (hzz.mul_const stationB.z)).add hpz
    simp only [calcStationLocation, calcStationVelocity, calcVectorOrientation, getBodyRotation,
      Transform.mulVec, Mat33.mulVec, Vec3.dot, Vec3.cross, vec3_add_def]
    convert hd using 1
    ring

/-- The body 1 of `turningBodyMotion` moves with the spatial velocity recorded in the state. -/
theorem turningBodyMotion_hasSpatialVelocity (t : ℝ) :
    HasSpatialVelocityAt turningBodyMotion 1 t := by
  have hc := Real.hasDerivAt_cos t
  have hs := Real.hasDerivAt_sin t
  have hns := hs.neg
  have hid := hasDerivAt_id t
  have hz : HasDerivAt (fun _ : ℝ => (0 : ℝ)) 0 t := hasDerivAt_const t 0
  have ho : HasDerivAt (fun _ : ℝ => (1 : ℝ)) 0 t := hasDerivAt_const t 1
  refine ⟨⟨?_, ?_, ?_⟩, ⟨?_, ?_, ?_⟩, ⟨?_, ?_, ?_⟩, ⟨?_, ?_, ?_⟩⟩
  all_goals
    simp only [turningBodyMotion, getBodyRotation, getBodyAngularVelocity, getBodyLocation,
      getBodyLinearVelocity, Transform.T, Rotation.setRotationFromAngleAboutZ, Mat33.colX,
      Mat33.colY, Mat33.colZ, Vec3.cross, if_true,
      mul_zero, zero_mul, sub_zero, zero_sub, one_mul, mul_one, sub_self]
  · exact hc
  · exact hs
  · exact hz
  · exact hns
  · exact hc
  · exact hz
  · exact hz
  · exact hz
  · exact ho
  · exact hid
  · exact hz
  · exact hz

/-- Witness for C13: the station `(1, 2, 3)` of body 1 of `turningBodyMotion` at time `0`. -/
theorem calcStationVelocity_is_derivative_witness :
    Vec3.HasTimeDerivAt (fun τ => calcStationLocation (turningBodyMotion τ) 1 ⟨1, 2, 3⟩)
      (calcStationVelocity (turningBodyMotion 0) 1 ⟨1, 2, 3⟩) 0 :=
  (calcStationVelocity_is_derivative turningBodyMotion 1 ⟨1, 2, 3⟩ 0
    (turningBodyMotion_hasSpatialVelocity 0)).1

/-- C15. Angular-velocity fit: `setUToFitAngularVelocityImpl` sets `u[0] = wz` and leaves
`u[1]` unchanged, so the angular part of `H_FM(q)*u` is `(0, 0, wz)`, the orthogonal
projection of `w_FM` onto the z axis; the written `u` does not depend on `q`. -/
theorem angular_velocity_fit (n : RBNodeBendStretch) (q u : Vector) (w_FM : Vec3 ℝ)
    (hu : n.uIndex + 1 < u.length) :
    (n.fromU (n.setUToFitAngularVelocityImpl q w_FM u)).x = w_FM.z ∧
    (n.fromU (n.setUToFitAngularVelocityImpl q w_FM u)).y = (n.fromU u).y ∧
    (n.V_FM q (n.setUToFitAngularVelocityImpl q w_FM u)).w = ⟨0, 0, w_FM.z⟩ ∧
    (⟨0, 0, w_FM.z⟩ : Vec3 ℝ) = (⟨0, 0, 1⟩ : Vec3 ℝ).scale (w_FM.dot ⟨0, 0, 1⟩) ∧
    ∀ q2 : Vector,
      n.setUToFitAngularVelocityImpl q2 w_FM u = n.setUToFitAngularVelocityImpl q w_FM u := by
  have h0 : n.uIndex < u.length := by omega
  have hx : (n.fromU (n.setUToFitAngularVelocityImpl q w_FM u)).x = w_FM.z := by
    unfold RBNodeBendStretch.setUToFitAngularVelocityImpl RBNodeBendStretch.fromU
      RBNodeBendStretch.toU
    simp only [Nat.add_zero]
    exact getD_set_eq _ _ _ h0
  refine ⟨hx, ?_, ?_, ?_, fun _ => rfl⟩
  · unfold RBNodeBendStretch.setUToFitAngularVelocityImpl RBNodeBendStretch.fromU
      RBNodeBendStretch.toU
    exact getD_set_ne _ _ _ _ (by omega)
  · simp only [RBNodeBendStretch.V_FM, RBNodeBendStretch.H_FM, calcAcrossJointVelocityJacobian,
      HType.mulU, SpatialVec.scale, Vec3.scale, Vec3.fill, spatialVec_add_def, vec3_add_def,
      hx, zero_mul, add_zero, one_mul]
  · simp [Vec3.scale, Vec3.dot]

/-- Witness for C15: desired angular velocity `(1, 2, 3)` with prior `u = (5, 6)`. -/
theorem angular_velocity_fit_witness :
    ((⟨0, 0⟩ : RBNodeBendStretch).fromU
      ((⟨0, 0⟩ : RBNodeBendStretch).setUToFitAngularVelocityImpl [0, 2] ⟨1, 2, 3⟩ [5, 6])).x = 3 ∧
    ((⟨0, 0⟩ : RBNodeBendStretch).fromU
      ((⟨0, 0⟩ : RBNodeBendStretch).setUToFitAngularVelocityImpl [0, 2] ⟨1, 2, 3⟩ [5, 6])).y
      = ((⟨0, 0⟩ : RBNodeBendStretch).fromU [5, 6]).y :=
  ⟨(angular_velocity_fit ⟨0, 0⟩ [0, 2] [5, 6] ⟨1, 2, 3⟩ (by simp)).1,
    (angular_velocity_fit ⟨0, 0⟩ [0, 2] [5, 6] ⟨1, 2, 3⟩ (by simp)).2.1⟩

/-- C16. The fit operations touch only this mobilizer's coordinates: an entry of the global
`q` outside the node's two-slot slice is left unchanged by `setQToFitRotationImpl` and
`setQToFitTranslationImpl` (the former also keeps the slice's `q[1]`), an entry of the global
`u` outside the node's two-slot slice is left unchanged by `setUToFitAngularVelocityImpl` and
`setUToFitLinearVelocityImpl`, and no array changes its size. The velocity fits only read
`q`: they return a new `u` and nothing else. -/
theorem fit_touches_only_own_slots (Eps SignificantReal : ℝ) (n : RBNodeBendStretch)
    (q u : Vector) (R_FM : Rotation ℝ) (p_FM w_FM v_FM : Vec3 ℝ) (i j : Nat)
    (hi0 : i ≠ n.qIndex) (hi1 : i ≠ n.qIndex + 1) (hj0 : j ≠ n.uIndex)
    (hj1 : j ≠ n.uIndex + 1) :
    (n.setQToFitRotationImpl Eps R_FM q)[i]? = q[i]? ∧
    (n.setQToFitTranslationImpl Eps p_FM q)[i]? = q[i]? ∧
    (n.fromQ (n.setQToFitRotationImpl Eps R_FM q)).y = (n.fromQ q).y ∧
    (n.setUToFitAngularVelocityImpl q w_FM u)[j]? = u[j]? ∧
    (n.setUToFitLinearVelocityImpl SignificantReal q v_FM u)[j]? = u[j]? ∧
    (n.setQToFitRotationImpl Eps R_FM q).length = q.length ∧
    (n.setQToFitTranslationImpl Eps p_FM q).length = q.length ∧
    (n.setUToFitAngularVelocityImpl q w_FM u).length = u.length ∧
    (n.setUToFitLinearVelocityImpl SignificantReal q v_FM u).length = u.length := by
  have hi0' : n.qIndex ≠ i := fun h => hi0 h.symm
  have hi1' : n.qIndex + 1 ≠ i := fun h => hi1 h.symm
  have hj0' : n.uIndex ≠ j := fun h => hj0 h.symm
  have hj1' : n.uIndex + 1 ≠ j := fun h => hj1 h.symm
  refine ⟨?_, ?_, ?_, ?_, ?_, ?_, ?_, ?_, ?_⟩
  · simp [RBNodeBendStretch.setQToFitRotationImpl, RBNodeBendStretch.toQ,
      List.getElem?_set, hi0']
  · unfold RBNodeBendStretch.setQToFitTranslationImpl
    dsimp only
    split <;> simp [RBNodeBendStretch.toQ, List.getElem?_set, hi0', hi1']
  · unfold RBNodeBendStretch.setQToFitRotationImpl RBNodeBendStretch.fromQ RBNodeBendStretch.toQ
    exact getD_set_ne _ _ _ _ (by omega)
  · simp [RBNodeBendStretch.setUToFitAngularVelocityImpl, RBNodeBendStretch.toU,
      List.getElem?_set, hj0']
  · unfold RBNodeBendStretch.setUToFitLinearVelocityImpl
    dsimp only
    split <;> simp [RBNodeBendStretch.toU, List.getElem?_set, hj0', hj1']
  · simp [RBNodeBendStretch.setQToFitRotationImpl, RBNodeBendStretch.toQ]
  · unfold RBNodeBendStretch.setQToFitTranslationImpl
    dsimp only
    split <;> simp [RBNodeBendStretch.toQ]
  · simp [RBNodeBendStretch.setUToFitAngularVelocityImpl, RBNodeBendStretch.toU]
  · unfold RBNodeBendStretch.setUToFitLinearVelocityImpl
    dsimp only
    split <;> simp [RBNodeBendStretch.toU]

/-- Witness for C16: a node owning `q[1..2]` and `u[2..3]`; entry 3 of `q` survives the
translation fit and entry 0 of `u` survives the linear-velocity fit. -/
theorem fit_touches_only_own_slots_witness :
    ((⟨2, 1⟩ : RBNodeBendStretch).setQToFitTranslationImpl (1 / 2 ^ 52) ⟨3, 4, 0⟩
        [10, 20, 30, 40])[3]? = ([10, 20, 30, 40] : Vector)[3]? ∧
    ((⟨2, 1⟩ : RBNodeBendStretch).setUToFitLinearVelocityImpl (1 / 10 ^ 14) [10, 20, 30, 40]
        ⟨1, 2, 3⟩ [1, 2, 3, 4, 5])[0]? = ([1, 2, 3, 4, 5] : Vector)[0]? :=
  ⟨(fit_touches_only_own_slots (1 / 2 ^ 52) (1 / 10 ^ 14) ⟨2, 1⟩ [10, 20, 30, 40]
      [1, 2, 3, 4, 5] (Rotation.setRotationFromAngleAboutZ 1) ⟨3, 4, 0⟩ ⟨1, 2, 3⟩ ⟨1, 2, 3⟩ 3 0
      (by decide) (by decide) (by decide) (by decide)).2.1,
    (fit_touches_only_own_slots (1 / 2 ^ 52) (1 / 10 ^ 14) ⟨2, 1⟩ [10, 20, 30, 40]
      [1, 2, 3, 4, 5] (Rotation.setRotationFromAngleAboutZ 1) ⟨3, 4, 0⟩ ⟨1, 2, 3⟩ ⟨1, 2, 3⟩ 3 0
      (by decide) (by decide) (by decide) (by decide)).2.2.2.2.1⟩

/-- C17. `isUsingAngles` of the bend-stretch joint returns `true` with `startOfAngles = 0` and
`nAngles = 1`: slot 0 of the joint's `q` slice lies in the declared angular range and slot 1
does not, and slot 0 is the coordinate `calcAcrossJointTransform` uses as the rotation
angle. -/
theorem isUsingAngles_first_slot_only (n : RBNodeBendStretch) (q : Vector) :
    n.isUsingAngles = (true, 0, 1) ∧
    (n.isUsingAngles.2.1 ≤ 0 ∧ 0 < n.isUsingAngles.2.1 + n.isUsingAngles.2.2) ∧
    ¬ (n.isUsingAngles.2.1 ≤ 1 ∧ 1 < n.isUsingAngles.2.1 + n.isUsingAngles.2.2) ∧
    (n.calcAcrossJointTransform q).R =
      Rotation.setRotationFromAngleAboutZ (q.getD (n.qIndex + n.isUsingAngles.2.1) 0) := by
  refine ⟨rfl, ?_, ?_, rfl⟩ <;> simp [RBNodeBendStretch.isUsingAngles]

/-- C18. Degenerate linear-velocity fit: when `|q1| < SignificantReal`, the fit returns without
executing the division, leaves `u[0]` unchanged and sets `u[1]` to `vx*cos q0 + vy*sin q0`; and
with `SignificantReal > 0` every executed division `v_FM_M[1]/q1` has a non-zero divisor, so
the fallible version always has a result, the one of `setUToFitLinearVelocityImpl`. -/
theorem degenerate_linear_velocity_fit (SignificantReal : ℝ) (n : RBNodeBendStretch)
    (q u : Vector) (v_FM : Vec3 ℝ) (hu : n.uIndex + 1 < u.length) (hS : 0 < SignificantReal) :
    (|(n.fromQ q).y| < SignificantReal →
      n.setUToFitLinearVelocityImplChecked SignificantReal q v_FM u
        = some (n.toU u 1
            (Real.cos (n.fromQ q).x * v_FM.x + Real.sin (n.fromQ q).x * v_FM.y)) ∧
      (n.fromU (n.setUToFitLinearVelocityImpl SignificantReal q v_FM u)).x = (n.fromU u).x ∧
      (n.fromU (n.setUToFitLinearVelocityImpl SignificantReal q v_FM u)).y
        = v_FM.x * Real.cos (n.fromQ q).x + v_FM.y * Real.sin (n.fromQ q).x) ∧
    (¬ |(n.fromQ q).y| < SignificantReal → (n.fromQ q).y ≠ 0) ∧
    n.setUToFitLinearVelocityImplChecked SignificantReal q v_FM u
      = some (n.setUToFitLinearVelocityImpl SignificantReal q v_FM u) := by
  have hne : ¬ |(n.fromQ q).y| < SignificantReal → (n.fromQ q).y ≠ 0 := by
    intro hx h0
    rw [h0, abs_zero] at hx
    exact hx hS
  refine ⟨fun hx => ⟨?_, ?_, ?_⟩, hne, ?_⟩
  · simp [RBNodeBendStretch.setUToFitLinearVelocityImplChecked, hx,
      Rotation.setRotationFromAngleAboutZ, Mat33.transpose, Mat33.mulVec, Vec3.dot]
  · rw [fromU_setUToFitLinearVelocityImpl SignificantReal n q v_FM u hu, if_pos hx]
  · rw [fromU_setUToFitLinearVelocityImpl SignificantReal n q v_FM u hu, if_pos hx]
    show Real.cos (n.fromQ q).x * v_FM.x + Real.sin (n.fromQ q).x * v_FM.y = _
    ring
  · unfold RBNodeBendStretch.setUToFitLinearVelocityImplChecked
      RBNodeBendStretch.setUToFitLinearVelocityImpl
    dsimp only
    by_cases hx : |(n.fromQ q).y| < SignificantReal
    · rw [if_pos hx, if_pos hx]
    · rw [if_neg hx, if_neg hx, checkedDiv, if_neg (hne hx)]
      rfl

/-- Witness for C18: `q1 = 0` with `SignificantReal = 10^-14`; the prior `u[0] = 5` is kept
and no division by `q1 = 0` takes place. -/
theorem degenerate_linear_velocity_fit_witness :
    (0 : ℝ) < 1 / 10 ^ 14 ∧
    (⟨0, 0⟩ : RBNodeBendStretch).setUToFitLinearVelocityImplChecked (1 / 10 ^ 14) [0, 0]
        ⟨1, 2, 3⟩ [5, 6]
      = some ((⟨0, 0⟩ : RBNodeBendStretch).setUToFitLinearVelocityImpl (1 / 10 ^ 14) [0, 0]
        ⟨1, 2, 3⟩ [5, 6]) ∧
    ((⟨0, 0⟩ : RBNodeBendStretch).fromU
      ((⟨0, 0⟩ : RBNodeBendStretch).setUToFitLinearVelocityImpl (1 / 10 ^ 14) [0, 0]
        ⟨1, 2, 3⟩ [5, 6])).x = ((⟨0, 0⟩ : RBNodeBendStretch).fromU [5, 6]).x :=
  ⟨by norm_num,
    (degenerate_linear_velocity_fit (1 / 10 ^ 14) ⟨0, 0⟩ [0, 0] [5, 6] ⟨1, 2, 3⟩ (by simp)
      (by norm_num)).2.2,
    ((degenerate_linear_velocity_fit (1 / 10 ^ 14) ⟨0, 0⟩ [0, 0] [5, 6] ⟨1, 2, 3⟩ (by simp)
      (by norm_num)).1 (by simp [RBNodeBendStretch.fromQ])).2.1⟩

/-- C21. Range of the translation fit: after `setQToFitTranslationImpl` the translational
coordinate is `0` or the norm of the x-y part of `p_FM`, hence `q[1] >= 0` whatever the prior
`q[1]` was, and whenever the angular coordinate is rewritten (norm `>= 4*Eps`) its new value
lies in `[-π, π]`. -/
theorem translation_fit_range (Eps : ℝ) (n : RBNodeBendStretch) (q : Vector) (p_FM : Vec3 ℝ)
    (hq : n.qIndex + 1 < q.length) :
    0 ≤ (n.fromQ (n.setQToFitTranslationImpl Eps p_FM q)).y ∧
    ((n.fromQ (n.setQToFitTranslationImpl Eps p_FM q)).y = 0 ∨
      (n.fromQ (n.setQToFitTranslationImpl Eps p_FM q)).y
        = Real.sqrt (p_FM.x ^ 2 + p_FM.y ^ 2)) ∧
    (Real.sqrt (p_FM.x ^ 2 + p_FM.y ^ 2) ≥ 4 * Eps →
      -Real.pi ≤ (n.fromQ (n.setQToFitTranslationImpl Eps p_FM q)).x ∧
      (n.fromQ (n.setQToFitTranslationImpl Eps p_FM q)).x ≤ Real.pi) ∧
    (Real.sqrt (p_FM.x ^ 2 + p_FM.y ^ 2) < 4 * Eps →
      (n.fromQ (n.setQToFitTranslationImpl Eps p_FM q)).x = (n.fromQ q).x) := by
  rw [fromQ_setQToFitTranslationImpl Eps n p_FM q hq]
  simp only [sq]
  by_cases hd : Real.sqrt (p_FM.x * p_FM.x + p_FM.y * p_FM.y) ≥ 4 * Eps
  · rw [if_pos hd]
    refine ⟨Real.sqrt_nonneg _, Or.inr rfl, fun _ => ⟨?_, ?_⟩, fun h => absurd hd (not_le.mpr h)⟩
    · exact le_of_lt (Complex.neg_pi_lt_arg _)
    · exact Complex.arg_le_pi _
  · rw [if_neg hd]
    exact ⟨le_refl _, Or.inl rfl, fun h => absurd h hd, fun _ => rfl⟩

/-- Witness for C21: the prior stretch `-9` is replaced by `0` for the translation `(0, 0, 5)`
with `Eps = 2^-52`. -/
theorem translation_fit_range_witness :
    (0 : Nat) + 1 < ([7, -9] : Vector).length ∧
    (0 : ℝ) ≤ ((⟨0, 0⟩ : RBNodeBendStretch).fromQ
      ((⟨0, 0⟩ : RBNodeBendStretch).setQToFitTranslationImpl (1 / 2 ^ 52) ⟨0, 0, 5⟩ [7, -9])).y :=
  ⟨by simp,
    (translation_fit_range (1 / 2 ^ 52) ⟨0, 0⟩ [7, -9] ⟨0, 0, 5⟩ (by simp)).1⟩

/-- C22. Periodicity and sign symmetry of the forward kinematics: a `q` whose slice is
`(q0 + 2π, q1)` gives the same transform as `(q0, q1)`; a `q` whose slice is `(q0 + π, -q1)`
gives the same translation, and a rotation that is the one of `(q0, q1)` followed by a half
turn about z (and so is a different rotation). -/
theorem forward_kinematics_symmetry (n : RBNodeBendStretch) (q qTurn qFlip : Vector)
    (hTurn : n.fromQ qTurn = ⟨(n.fromQ q).x + 2 * Real.pi, (n.fromQ q).y⟩)
    (hFlip : n.fromQ qFlip = ⟨(n.fromQ q).x + Real.pi, -(n.fromQ q).y⟩) :
    n.calcAcrossJointTransform qTurn = n.calcAcrossJointTransform q ∧
    (n.calcAcrossJointTransform qFlip).p = (n.calcAcrossJointTransform q).p ∧
    (n.calcAcrossJointTransform qFlip).R
      = (n.calcAcrossJointTransform q).R.mul (Rotation.setRotationFromAngleAboutZ Real.pi) ∧
    (n.calcAcrossJointTransform qFlip).R ≠ (n.calcAcrossJointTransform q).R := by
  refine ⟨?_, ?_, ?_, ?_⟩
  · simp only [RBNodeBendStretch.calcAcrossJointTransform, hTurn,
      Rotation.setRotationFromAngleAboutZ, Real.cos_add_two_pi, Real.sin_add_two_pi]
  · rw [calcAcrossJointTransform_p, calcAcrossJointTransform_p, hFlip]
    simp only [Real.cos_add_pi, Real.sin_add_pi, neg_mul_neg]
  · simp [RBNodeBendStretch.calcAcrossJointTransform, hFlip,
      Rotation.setRotationFromAngleAboutZ, Mat33.mul, Mat33.colX, Vec3.dot,
      Real.cos_add_pi, Real.sin_add_pi]
  · intro h
    simp only [RBNodeBendStretch.calcAcrossJointTransform, hFlip,
      Rotation.setRotationFromAngleAboutZ, Real.cos_add_pi, Real.sin_add_pi,
      Mat33.mk.injEq, Vec3.mk.injEq] at h
    have hc : Real.cos (n.fromQ q).x = 0 := by linarith [h.1.1]
    have hs : Real.sin (n.fromQ q).x = 0 := by linarith [h.2.1.1]
    have := Real.cos_sq_add_sin_sq (n.fromQ q).x
    rw [hc, hs] at this
    norm_num at this

/-- Witness for C22: `q = (1, 2)`, with `(1 + 2π, 2)` and `(1 + π, -2)`. -/
theorem forward_kinematics_symmetry_witness :
    (⟨0, 0⟩ : RBNodeBendStretch).calcAcrossJointTransform [1 + 2 * Real.pi, 2]
      = (⟨0, 0⟩ : RBNodeBendStretch).calcAcrossJointTransform [1, 2] ∧
    ((⟨0, 0⟩ : RBNodeBendStretch).calcAcrossJointTransform [1 + Real.pi, -2]).p
      = ((⟨0, 0⟩ : RBNodeBendStretch).calcAcrossJointTransform [1, 2]).p :=
  ⟨(forward_kinematics_symmetry ⟨0, 0⟩ [1, 2] [1 + 2 * Real.pi, 2] [1 + Real.pi, -2]
      (by simp [RBNodeBendStretch.fromQ]) (by simp [RBNodeBendStretch.fromQ])).1,
    (forward_kinematics_symmetry ⟨0, 0⟩ [1, 2] [1 + 2 * Real.pi, 2] [1 + Real.pi, -2]
      (by simp [RBNodeBendStretch.fromQ]) (by simp [RBNodeBendStretch.fromQ])).2.1⟩

/-- C23. `calcJointSinCosQNorm` of the bend-stretch joint writes `sin(q0)` and `cos(q0)` into
the first slot of this mobilizer's slices of `sine` and `cosine` (so the squares of the two
sum to one there), and leaves the second slot of those slices and the `qErr` and `qnorm`
arrays unchanged. -/
theorem calcJointSinCosQNorm_effect (n : RBNodeBendStretch) (q : Vector) (a : SinCosQNorm)
    (hs : n.qIndex < a.sine.length) (hc : n.qIndex < a.cosine.length) :
    (n.fromQ (n.calcJointSinCosQNorm q a).sine).x = Real.sin (n.fromQ q).x ∧
    (n.fromQ (n.calcJointSinCosQNorm q a).cosine).x = Real.cos (n.fromQ q).x ∧
    (n.fromQ (n.calcJointSinCosQNorm q a).sine).x ^ 2
      + (n.fromQ (n.calcJointSinCosQNorm q a).cosine).x ^ 2 = 1 ∧
    (n.fromQ (n.calcJointSinCosQNorm q a).sine).y = (n.fromQ a.sine).y ∧
    (n.fromQ (n.calcJointSinCosQNorm q a).cosine).y = (n.fromQ a.cosine).y ∧
    (n.calcJointSinCosQNorm q a).qErr = a.qErr ∧
    (n.calcJointSinCosQNorm q a).qnorm = a.qnorm := by
  have h1 : (n.fromQ (n.calcJointSinCosQNorm q a).sine).x = Real.sin (n.fromQ q).x := by
    unfold RBNodeBendStretch.calcJointSinCosQNorm RBNodeBendStretch.toQ
    simp only [Nat.add_zero]
    exact getD_set_eq _ _ _ hs
  have h2 : (n.fromQ (n.calcJointSinCosQNorm q a).cosine).x = Real.cos (n.fromQ q).x := by
    unfold RBNodeBendStretch.calcJointSinCosQNorm RBNodeBendStretch.toQ
    simp only [Nat.add_zero]
    exact getD_set_eq _ _ _ hc
  refine ⟨h1, h2, ?_, ?_, ?_, rfl, rfl⟩
  · rw [h1, h2]
    exact Real.sin_sq_add_cos_sq (n.fromQ q).x
  · unfold RBNodeBendStretch.calcJointSinCosQNorm RBNodeBendStretch.toQ
    exact getD_set_ne _ _ _ _ (by omega)
  · unfold RBNodeBendStretch.calcJointSinCosQNorm RBNodeBendStretch.toQ
    exact getD_set_ne _ _ _ _ (by omega)

/-- Witness for C23: angle `0`, with `sine = (7, 8)`, `cosine = (5, 6)`, `qErr = (3)` and
`qnorm = (4)`. -/
theorem calcJointSinCosQNorm_effect_witness :
    ((⟨0, 0⟩ : RBNodeBendStretch).fromQ
        ((⟨0, 0⟩ : RBNodeBendStretch).calcJointSinCosQNorm [0, 2] ⟨[7, 8], [5, 6], [3], [4]⟩).sine).x
      = Real.sin ((⟨0, 0⟩ : RBNodeBendStretch).fromQ [0, 2]).x ∧
    ((⟨0, 0⟩ : RBNodeBendStretch).calcJointSinCosQNorm [0, 2] ⟨[7, 8], [5, 6], [3], [4]⟩).qErr
      = [3] :=
  ⟨(calcJointSinCosQNorm_effect ⟨0, 0⟩ [0, 2] ⟨[7, 8], [5, 6], [3], [4]⟩ (by simp) (by simp)).1,
    (calcJointSinCosQNorm_effect ⟨0, 0⟩ [0, 2] ⟨[7, 8], [5, 6], [3], [4]⟩ (by simp)
      (by simp)).2.2.2.2.2.1⟩

end SimTK
